import Mathlib

/-!
Verification of the MercuriesOST social-profile scanning core.

The definitions below are a shallow embedding of the Go source under
`public/osint` (google-osint.go, validate-profile.go) and
`public/variations` (variations.go).  Network requests, documents and the
system clock appear as explicit parameters; machine strings are modelled at
character granularity (the scanned inputs are ASCII), `float64` confidence
arithmetic is modelled over `ℚ` (all constants in the source are exact
decimals), and Go map iteration order — which Go leaves unspecified — is
modelled by an explicit enumeration parameter where a claim depends on it.
Theorems at the end check the specification's claims against the embedding.
-/

namespace Mercuries

/-! ### Primitives of Go's `strings`/`unicode` packages (ASCII fragment) -/

/-- `unicode.IsSpace` on the ASCII range: space, \t, \n, \v, \f, \r. -/
def isSpaceGo (c : Char) : Bool :=
  c = ' ' || c = '\t' || c = '\n' || c = '\x0b' || c = '\x0c' || c = '\r'

/-- The `\s` character class of Go's `regexp` package: [\t\n\f\r ]. -/
def isRegexSpace (c : Char) : Bool :=
  c = ' ' || c = '\t' || c = '\n' || c = '\x0c' || c = '\r'

/-- `strings.ToLower` on ASCII letters. -/
def toLowerGo (s : String) : String :=
  ⟨s.toList.map fun c => if 65 ≤ c.toNat ∧ c.toNat ≤ 90 then Char.ofNat (c.toNat + 32) else c⟩

/-- Substring test on character lists: does `pat` occur inside `s`?
Models `strings.Contains s pat`. -/
def containsSub (s pat : List Char) : Bool :=
  if pat.isPrefixOf s then true
  else
    match s with
    | [] => false
    | _ :: rest => containsSub rest pat

/-- `strings.Contains`. -/
def containsGo (s sub : String) : Bool :=
  containsSub s.toList sub.toList

/-- `strings.TrimSpace`. -/
def trimSpaceGo (s : String) : String :=
  ⟨((s.toList.dropWhile isSpaceGo).reverse.dropWhile isSpaceGo).reverse⟩

/-- Splitting a character list around runs of `unicode.IsSpace` characters;
the word list of `strings.Fields`. -/
def splitWSAux : Nat → List Char → List (List Char)
  | 0, _ => []
  | _ + 1, [] => []
  | fuel + 1, c :: rest =>
    if isSpaceGo c then splitWSAux fuel rest
    else (c :: rest.takeWhile (fun d => !isSpaceGo d)) ::
      splitWSAux fuel (rest.dropWhile (fun d => !isSpaceGo d))

def splitWS (l : List Char) : List (List Char) := splitWSAux l.length l

/-- `strings.Fields`. -/
def fieldsGo (s : String) : List String :=
  (splitWS s.toList).map fun l => ⟨l⟩

/-- `strings.ReplaceAll` on character lists (leftmost, non-overlapping).
Every call site in the source passes a non-empty `old`; for `old = []` the
input is returned unchanged. -/
def replaceListAux (old new : List Char) : Nat → List Char → List Char
  | 0, s => s
  | _ + 1, [] => []
  | fuel + 1, c :: rest =>
    if old ≠ [] ∧ old.isPrefixOf (c :: rest) then
      new ++ replaceListAux old new fuel ((c :: rest).drop old.length)
    else c :: replaceListAux old new fuel rest

def replaceList (s old new : List Char) : List Char :=
  replaceListAux old new s.length s

/-- `strings.ReplaceAll`. -/
def replaceAllGo (s old new : String) : String :=
  ⟨replaceList s.toList old.toList new.toList⟩

/-- One maximal run of `\s` characters becomes a single space: the effect of
`regexp.MustCompile("\\s+").ReplaceAllString(text, " ")`. -/
def collapseWS : List Char → List Char
  | [] => []
  | c :: rest =>
    if isRegexSpace c then ' ' :: collapseWS (rest.dropWhile isRegexSpace)
    else c :: collapseWS rest
  termination_by l => l.length
  decreasing_by
    · have := (List.dropWhile_sublist isRegexSpace (l := rest)).length_le
      simp only [List.length_cons]; omega
    · simp only [List.length_cons]; omega

/-- `cleanText` from google-osint.go: newlines to spaces, collapse `\s+`
runs to one space, trim. -/
def cleanText (text : String) : String :=
  let t1 := replaceAllGo text "\n" " "
  let t2 : String := ⟨collapseWS t1.toList⟩
  trimSpaceGo t2

/-! ### Data model (google-osint.go) -/

/-- `SocialPlatform` from google-osint.go. -/
structure SocialPlatform where
  Name : String
  URL : String
  ProfilePattern : String
  ExistMarkers : List String
  NotExistMarkers : List String
  NameSelector : String
  BioSelector : String
  AvatarSelector : String
  FollowersSelector : String
  JoinDateSelector : String
  LocationSelector : String
  ActivitySelector : String
  ConnectionsSelector : String
deriving DecidableEq, Repr

/-- `ProfileResult` from google-osint.go. -/
structure ProfileResult where
  Platform : String
  URL : String
  Exists : Bool
  Username : String
  FullName : String
  Bio : String
  FollowerCount : Nat
  JoinDate : String
  Avatar : String
  Location : String
  Connections : List String
  RecentActivity : List String
  Insights : List String
  Error : String
deriving DecidableEq, Repr

/-- The zero value of Go's `var result ProfileResult`. -/
def ProfileResult.zero : ProfileResult :=
  { Platform := "", URL := "", Exists := false, Username := "", FullName := "",
    Bio := "", FollowerCount := 0, JoinDate := "", Avatar := "", Location := "",
    Connections := [], RecentActivity := [], Insights := [], Error := "" }

/-- `SocialMediaResults` from google-osint.go. -/
structure SocialMediaResults where
  Query : String
  Timestamp : String
  ProfilesFound : Nat
  Profiles : List ProfileResult
deriving DecidableEq, Repr

/-- `workItem` from google-osint.go. -/
structure workItem where
  platform : SocialPlatform
  term : String
deriving DecidableEq, Repr

/-- The `platforms` catalog of google-osint.go. -/
def platforms : List SocialPlatform :=
  [{ Name := "Twitter", URL := "https://twitter.com/", ProfilePattern := "%s",
     ExistMarkers := ["profile-picture", "profile-card"],
     NotExistMarkers := ["This account doesn't exist", "User not found"],
     NameSelector := "[data-testid='UserName'], .fullname",
     BioSelector := "[data-testid='UserDescription'], .bio",
     AvatarSelector := "[data-testid='UserAvatar'] img, .profile-picture",
     FollowersSelector := "[data-testid='UserProfileHeader_Items'] span, .followers-count",
     JoinDateSelector := "[data-testid='UserProfileHeader_Items'] span:contains('Joined'), .join-date",
     LocationSelector := "[data-testid='UserLocation'], .location",
     ActivitySelector := "[data-testid='tweet'], .timeline-item",
     ConnectionsSelector := ".follows-recommendations, .follows-you" },
   { Name := "Instagram", URL := "https://www.instagram.com/", ProfilePattern := "%s/",
     ExistMarkers := ["profile-picture", "biography"],
     NotExistMarkers := ["Page Not Found", "Sorry, this page isn't available"],
     NameSelector := "header h1, .fullname",
     BioSelector := "header h1 ~ div, .biography",
     AvatarSelector := "header img, .profile-picture",
     FollowersSelector := "ul li span, .followers",
     JoinDateSelector := "", LocationSelector := "",
     ActivitySelector := "article, .post",
     ConnectionsSelector := ".followed-by, .follows-you" },
   { Name := "Facebook", URL := "https://www.facebook.com/", ProfilePattern := "%s",
     ExistMarkers := ["profile-picture", "cover-photo"],
     NotExistMarkers := ["Page Not Found", "content isn't available"],
     NameSelector := "h1, .fullname",
     BioSelector := "[data-pagelet='ProfileTilesBio'], .bio",
     AvatarSelector := "[data-pagelet='ProfilePhoto'] img, .profile-picture",
     FollowersSelector := "[data-pagelet='ProfileActions'] span, .followers",
     JoinDateSelector := "",
     LocationSelector := "[data-pagelet='ProfileTilesLocation'], .location",
     ActivitySelector := "[data-pagelet='ProfileTimeline'] article, .timeline-item",
     ConnectionsSelector := "[data-pagelet='ProfileFriendsCard'], .friend-card" },
   { Name := "LinkedIn", URL := "https://www.linkedin.com/in/", ProfilePattern := "%s/",
     ExistMarkers := ["profile-picture", "experience"],
     NotExistMarkers := ["Page Not Found", "This page doesn't exist"],
     NameSelector := ".pv-top-card--list h1, .profile-name",
     BioSelector := ".pv-about-section, .bio",
     AvatarSelector := ".pv-top-card__photo img, .profile-picture",
     FollowersSelector := ".pv-top-card--list-bullet li, .follower-count",
     JoinDateSelector := "",
     LocationSelector := ".pv-top-card--list-bullet li, .location",
     ActivitySelector := ".activity-section article, .activity-item",
     ConnectionsSelector := ".pv-browsemap-section__member, .connection-card" },
   { Name := "GitHub", URL := "https://github.com/", ProfilePattern := "%s",
     ExistMarkers := ["avatar", "pinned-items-container"],
     NotExistMarkers := ["404", "Not Found"],
     NameSelector := "span.p-name, .fullname",
     BioSelector := "div.p-note, .bio",
     AvatarSelector := "img.avatar, .profile-picture",
     FollowersSelector := ".js-profile-editable-area a[href*='followers'], .followers",
     JoinDateSelector := "relative-time, .join-date",
     LocationSelector := "li[itemprop='homeLocation'], .location",
     ActivitySelector := ".contribution-activity-listing article, .activity-item",
     ConnectionsSelector := ".js-org-members, .connection-card" },
   { Name := "Reddit", URL := "https://www.reddit.com/user/", ProfilePattern := "%s",
     ExistMarkers := ["UserProfileHeader", "karma"],
     NotExistMarkers := ["page not found", "Sorry, nobody on Reddit goes by that name"],
     NameSelector := "h4._2xvlm, .fullname",
     BioSelector := "div._1zPvgKHteTOub9dKkvrOl4, .bio",
     AvatarSelector := "img._2bLCGrtCCJIMNCZgmAMZFM, .profile-picture",
     FollowersSelector := "span._3uK2I0hi3JFTKnMUFHD2Pd, .followers",
     JoinDateSelector := "span:contains('Created'), .join-date",
     LocationSelector := "",
     ActivitySelector := "div.Profile__posts article, .post",
     ConnectionsSelector := "" },
   { Name := "TikTok", URL := "https://www.tiktok.com/@", ProfilePattern := "%s",
     ExistMarkers := ["avatar", "following-count"],
     NotExistMarkers := ["Couldn't find this account", "Page not available"],
     NameSelector := "h1.share-title, .fullname",
     BioSelector := "h2.share-desc, .bio",
     AvatarSelector := "img.avatar, .profile-picture",
     FollowersSelector := "strong.count-infos, .followers",
     JoinDateSelector := "", LocationSelector := "",
     ActivitySelector := "div.video-feed-item, .post",
     ConnectionsSelector := "" }]

/-- `maxRetries` from google-osint.go's scanning constants. -/
def maxRetries : Nat := 2

/-! ### ProfileValidator (validate-profile.go) -/

/-- `ValidationResult` from validate-profile.go; `float64` confidence over `ℚ`. -/
structure ValidationResult where
  IsValid : Bool
  Confidence : ℚ
  Markers : List String
  StatusCode : Nat
  ErrorReason : String
  Username : String
  ProfileType : String
deriving DecidableEq, Repr

/-- Outcome of `ValidateProfile`'s single HTTP GET: request construction
error, transport error from `client.Do`, or a response (status, the last
redirect target tracked by `CheckRedirect` — empty when no redirect — and
the result of reading the body). -/
inductive FetchOutcome where
  | reqError (msg : String)
  | doError (msg : String)
  | ok (statusCode : Nat) (finalURL : String) (body : Except String String)
deriving Repr

/-- `nonExistentPhrases` from validate-profile.go. -/
def nonExistentPhrases : List String :=
  ["page isn't available", "page not found", "user not found", "doesn't exist",
   "isn't available", "account has been suspended", "account doesn't exist",
   "this account is private", "this profile isn't available",
   "sorry, this page isn't available", "the link you followed may be broken"]

/-- Match of Go's regex `(\d+) karma`: some digit directly followed by
" karma". -/
def karmaMatch : List Char → Bool
  | [] => false
  | c :: rest => (c.isDigit && " karma".toList.isPrefixOf rest) || karmaMatch rest

/-- After `(\d+` in a regex: digits then a closing double quote. -/
def quoteAfterDigits : List Char → Bool
  | [] => false
  | c :: rest => if c = '"' then true else c.isDigit && quoteAfterDigits rest

/-- Match of `(\d+)"`: at least one digit, then a double quote. -/
def digitsThenQuote : List Char → Bool
  | [] => false
  | c :: rest => c.isDigit && quoteAfterDigits rest

/-- The literal head of Instagram's `profileDataRe` regex. -/
def instaLit1 : List Char := "\"user\":\x7b\"biography\":\"".toList

/-- The middle literal of Instagram's `profileDataRe` regex. -/
def instaLit2 : List Char := "\",\"id\":\"".toList

/-- Scan the lazy `(.*?)` middle of `profileDataRe`: at each position either
the tail `","id":"(\d+)"` matches, or the current character is a non-newline
consumed by `.` and scanning continues. -/
def instaScan : List Char → Bool
  | [] => false
  | c :: rest =>
    (match instaLit2.isPrefixOf? (c :: rest) with
     | some after => digitsThenQuote after
     | none => false)
    || (c ≠ '\n' && instaScan rest)

/-- `profileDataRe.MatchString`: the regex
`"user":{"biography":"(.*?)","id":"(\d+)"` matches somewhere in the body. -/
def instaProfileDataMatch : List Char → Bool
  | [] => false
  | c :: rest =>
    (match instaLit1.isPrefixOf? (c :: rest) with
     | some after => instaScan after
     | none => false)
    || instaProfileDataMatch rest

/-- `realUserIndicators` from validate-profile.go.  The source holds these in
a Go map whose iteration order is unspecified; only the number of matching
indicators feeds the confidence, so the fixed source-text order used here is
observationally equivalent for confidence (marker order follows this list). -/
def realUserIndicators : List (String × String) :=
  [("Posts", "Found user posts"), ("Followers", "Has followers"),
   ("Following", "Is following others"), ("Comments", "Has comments"),
   ("Bio", "Has biography"), ("Profile photo", "Has profile photo"),
   ("Cover photo", "Has cover photo")]

/-- The `switch platform.Name` block of `ValidateProfile` (the 200-only
platform-specific heuristics).  `.error` is an early `return result` from the
Go function; `.ok` falls through to the cross-platform indicators. -/
def platformSpecificChecks (platformName username finalURL body : String)
    (r : ValidationResult) : Except ValidationResult ValidationResult :=
  if platformName = "Twitter" ∨ platformName = "X" then
    if containsGo body "\"This account doesn't exist\"" || containsGo body "User not found" then
      .error { r with
          IsValid := false
          Confidence := 0.95
          ErrorReason := "Account doesn't exist (content analysis)" }
    else
      let r := if containsGo body ("@" ++ username) then
          { r with Confidence := 0.95, Markers := r.Markers ++ ["Username found in page content"] }
        else r
      let r := if containsGo body "verified_user" || containsGo body "VerifiedAccount" then
          { r with Confidence := 0.99, Markers := r.Markers ++ ["Verified account"] }
        else r
      .ok r
  else if platformName = "Instagram" then
    if containsGo body "Sorry, this page" && containsGo body "isn't available" then
      .error { r with
          IsValid := false
          Confidence := 0.95
          ErrorReason := "Page not available (content analysis)" }
    else
      let r := if instaProfileDataMatch body.toList then
          { r with Confidence := 0.95, Markers := r.Markers ++ ["User data found in page content"] }
        else r
      let r := if containsGo body "\"is_verified\":true" then
          { r with Confidence := 0.99, Markers := r.Markers ++ ["Verified account"] }
        else r
      .ok r
  else if platformName = "Facebook" then
    if containsGo body "content not found" || containsGo body "page you requested cannot be displayed" then
      .error { r with
          IsValid := false
          Confidence := 0.95
          ErrorReason := "Content not found (content analysis)" }
    else if containsGo finalURL "facebook.com/pages_reaction_units" then
      .error { r with
          IsValid := false
          Confidence := 0.9
          ErrorReason := "Redirected to error page" }
    else if containsGo body "\"pageID\"" then
      .ok { r with ProfileType := "page", Markers := r.Markers ++ ["Business/Fan page detected"] }
    else
      .ok { r with ProfileType := "personal", Markers := r.Markers ++ ["Personal profile detected"] }
  else if platformName = "LinkedIn" then
    if containsGo body "page not found" || containsGo body "this page doesn't exist" then
      .error { r with
          IsValid := false
          Confidence := 0.95
          ErrorReason := "Page not found (content analysis)" }
    else
      let profileSections := (["experience-section", "education-section", "skills-section"].filter
          (fun sec => containsGo body sec)).length
      if profileSections > 0 then
        .ok { r with
          Confidence := r.Confidence + (profileSections : ℚ) * 0.05
          Markers := r.Markers ++ [s!"Found {profileSections} profile sections"] }
      else .ok r
  else if platformName = "Reddit" then
    if containsGo body "Sorry, nobody on Reddit goes by that name" then
      .error { r with
          IsValid := false
          Confidence := 0.95
          ErrorReason := "User doesn't exist (content analysis)" }
    else
      let r := if karmaMatch body.toList then
          { r with Confidence := 0.9, Markers := r.Markers ++ ["Karma count found - active account"] }
        else r
      let r := if containsGo body "redditor for" then
          { r with Confidence := r.Confidence + 0.05, Markers := r.Markers ++ ["Account age indicator found"] }
        else r
      .ok r
  else .ok r

/-- The tail of `ValidateProfile`'s 200 branch: the cross-platform
`realUserIndicators` scan, the capped indicator bonus, and the final clamp
at 1.0. -/
def applyIndicators (bodyContent : String) (r : ValidationResult) : ValidationResult :=
  let matched := realUserIndicators.filter (fun pr =>
      containsGo (toLowerGo bodyContent) (toLowerGo pr.1))
  let indicatorsFound := matched.length
  let r1 := { r with Markers := r.Markers ++ matched.map (·.2) }
  let r2 := if indicatorsFound > 0 then
      { r1 with Confidence := r1.Confidence + min ((indicatorsFound : ℚ) * 0.05) 0.3 }
    else r1
  if r2.Confidence > (1.0 : ℚ) then { r2 with Confidence := 1.0 } else r2

/-- `ValidateProfile` from validate-profile.go, over an explicit fetch
outcome in place of the live HTTP client. -/
def ValidateProfile (platform : SocialPlatform) (url username : String)
    (fetch : FetchOutcome) : ValidationResult :=
  let result : ValidationResult :=
    { IsValid := false
      Confidence := 0.0
      Markers := []
      StatusCode := 0
      ErrorReason := ""
      Username := username
      ProfileType := "" }
  match fetch with
  | .reqError msg => { result with ErrorReason := "Error creating request: " ++ msg }
  | .doError msg => { result with ErrorReason := "Error performing request: " ++ msg }
  | .ok statusCode finalURL bodyRead =>
    let result := { result with StatusCode := statusCode }
    let result := if finalURL ≠ "" ∧ finalURL ≠ url then
        { result with Markers := result.Markers ++ ["Redirected to: " ++ finalURL] }
      else result
    if statusCode = 404 then
      { result with ErrorReason := "Profile does not exist (404)" }
    else if statusCode = 403 then
      { result with
          ErrorReason := "Access forbidden (403) - possible rate limiting"
          Confidence := 0.3 }
    else if statusCode = 429 then
      { result with ErrorReason := "Rate limited (429)", Confidence := 0.3 }
    else
      match bodyRead with
      | .error msg => { result with ErrorReason := "Error reading response body: " ++ msg }
      | .ok bodyContent =>
        match nonExistentPhrases.find? (fun phrase =>
            containsGo (toLowerGo bodyContent) (toLowerGo phrase)) with
        | some phrase =>
          { result with
              IsValid := false
              Confidence := 0.9
              ErrorReason := "Profile likely doesn't exist: Found '" ++ phrase ++ "'" }
        | none =>
          if statusCode = 200 then
            let result := { result with
              IsValid := true
              Confidence := 0.7
              Markers := result.Markers ++ ["Profile page accessible"] }
            match platformSpecificChecks platform.Name username finalURL bodyContent result with
            | .error final => final
            | .ok result => applyIndicators bodyContent result
          else
            { result with ErrorReason := s!"Profile not accessible (Status: {statusCode})" }

/-! ### Confidence bounds of the validator -/

/-- Bounds carried by the outcome of the platform-specific switch: an early
return stays within [0,1]; a fall-through result is at most 0.99, leaving
room for the capped indicator bonus. -/
def confWithinBounds : Except ValidationResult ValidationResult → Prop
  | .error e => 0 ≤ e.Confidence ∧ e.Confidence ≤ 1
  | .ok r => 0 ≤ r.Confidence ∧ r.Confidence ≤ 99/100

/-- An all-empty platform, used as the default of safe catalog lookups. -/
def emptyPlatform : SocialPlatform :=
  { Name := "", URL := "", ProfilePattern := "", ExistMarkers := [], NotExistMarkers := [],
    NameSelector := "", BioSelector := "", AvatarSelector := "", FollowersSelector := "",
    JoinDateSelector := "", LocationSelector := "", ActivitySelector := "",
    ConnectionsSelector := "" }

/-- The i-th platform of the catalog. -/
def platformAt (i : Nat) : SocialPlatform := platforms.getD i emptyPlatform

/-! ### ProfileExtractor (the `extract*` functions of google-osint.go)

A parsed document is modelled as the function goquery provides to the
extractor: a CSS selector is mapped to the matched nodes in document
order.  A node carries its text, its attributes and whether it matches
`Is("relative-time")`. -/

/-- A DOM node as the extraction code observes it. -/
structure DomNode where
  text : String
  attrs : List (String × String)
  isRelativeTimeTag : Bool
deriving DecidableEq, Repr

/-- goquery's `Selection.Attr`. -/
def DomNode.attr (n : DomNode) (name : String) : Option String :=
  (n.attrs.find? (fun pr => pr.1 == name)).map (·.2)

/-- A parsed document: selector to matched nodes. -/
def Doc : Type := String → List DomNode

/-- The leftmost match of the follower-count regex `(\d+(?:[,.]\d+)?)`. -/
def firstNumberToken : List Char → Option (List Char)
  | [] => none
  | c :: rest =>
    if c.isDigit then
      let run1 := (c :: rest).takeWhile Char.isDigit
      let rest1 := (c :: rest).dropWhile Char.isDigit
      match rest1 with
      | sep :: d :: _ =>
        if (sep = ',' ∨ sep = '.') ∧ d.isDigit then
          some (run1 ++ [sep] ++ (rest1.drop 1).takeWhile Char.isDigit)
        else some run1
      | _ => some run1
    else firstNumberToken rest

/-- Reading a digit string as a number (`fmt.Sscanf` with `%d`). -/
def digitsToNat (l : List Char) : Nat :=
  l.foldl (fun acc c => acc * 10 + (c.toNat - 48)) 0

/-- Follower-count extraction: first number-like token, thousands
separators stripped, parsed as an integer. -/
def extractFirstNumber (text : String) : Option Nat :=
  (firstNumberToken text.toList).map (fun tok => digitsToNat (tok.filter Char.isDigit))

/-- `extractProfileInfo` from google-osint.go. -/
def extractProfileInfo (doc : Doc) (result0 : ProfileResult)
    (platform : SocialPlatform) : ProfileResult :=
  let result := if platform.NameSelector ≠ "" then
      (doc platform.NameSelector).foldl (fun r n =>
        if r.FullName = "" ∧ n.text ≠ "" then { r with FullName := cleanText n.text } else r)
        result0
    else result0
  let result := if platform.BioSelector ≠ "" then
      (doc platform.BioSelector).foldl (fun r n =>
        if r.Bio = "" ∧ n.text ≠ "" then { r with Bio := cleanText n.text } else r) result
    else result
  let result := if platform.AvatarSelector ≠ "" then
      (doc platform.AvatarSelector).foldl (fun r n =>
        if r.Avatar = "" then
          match n.attr "src" with
          | some src => { r with Avatar := src }
          | none => r
        else r) result
    else result
  let result := if platform.FollowersSelector ≠ "" then
      (doc platform.FollowersSelector).foldl (fun r n =>
        if containsGo (toLowerGo n.text) "follower" then
          match extractFirstNumber n.text with
          | some num => { r with FollowerCount := num }
          | none => r
        else r) result
    else result
  let result := if platform.JoinDateSelector ≠ "" then
      (doc platform.JoinDateSelector).foldl (fun r n =>
        if containsGo (toLowerGo n.text) "join" ∨ containsGo (toLowerGo n.text) "creat" ∨
            n.isRelativeTimeTag then
          match n.attr "datetime" with
          | some ts => { r with JoinDate := ts }
          | none => { r with JoinDate := cleanText n.text }
        else r) result
    else result
  let result := if platform.LocationSelector ≠ "" then
      (doc platform.LocationSelector).foldl (fun r n =>
        if r.Location = "" ∧ n.text ≠ "" then { r with Location := cleanText n.text } else r)
        result
    else result
  let confidenceScore : Nat :=
    (if result.FullName ≠ "" then 20 else 0) + (if result.Bio ≠ "" then 20 else 0) +
    (if result.Avatar ≠ "" then 20 else 0) + (if result.FollowerCount > 0 then 20 else 0) +
    (if result.Location ≠ "" then 20 else 0)
  { result with Insights := result.Insights ++ [s!"Profile match confidence: {confidenceScore}%"] }

/-- The body of `extractRecentActivity`'s `Each` callback: skip past index
4, clean, truncate to 100 characters, skip empties. -/
def activityStep (r : ProfileResult) (pr : Nat × DomNode) : ProfileResult :=
  if pr.1 ≥ 5 then r
  else
    let text := cleanText pr.2.text
    let text := if text.length > 100 then text.take 97 ++ "..." else text
    if text ≠ "" then { r with RecentActivity := r.RecentActivity ++ [text] } else r

/-- `extractRecentActivity` from google-osint.go: first 5 matches, cleaned,
truncated to 100 characters, empties skipped; an empty selector leaves the
result untouched. -/
def extractRecentActivity (doc : Doc) (result : ProfileResult)
    (platform : SocialPlatform) : ProfileResult :=
  if platform.ActivitySelector = "" then result
  else (doc platform.ActivitySelector).enum.foldl activityStep result

/-- The body of `extractConnections`'s `Each` callback: skip past index 4,
clean, truncate to 50 characters, skip empties. -/
def connectionsStep (r : ProfileResult) (pr : Nat × DomNode) : ProfileResult :=
  if pr.1 ≥ 5 then r
  else
    let text := cleanText pr.2.text
    let text := if text.length > 50 then text.take 47 ++ "..." else text
    if text ≠ "" then { r with Connections := r.Connections ++ [text] } else r

/-- `extractConnections` from google-osint.go: first 5 matches, cleaned,
truncated to 50 characters, empties skipped; an empty selector leaves the
result untouched. -/
def extractConnections (doc : Doc) (result : ProfileResult)
    (platform : SocialPlatform) : ProfileResult :=
  if platform.ConnectionsSelector = "" then result
  else (doc platform.ConnectionsSelector).enum.foldl connectionsStep result

/-- `professionalKeywords` from `extractInsights`. -/
def professionalKeywords : List String :=
  ["engineer", "developer", "designer", "manager", "director", "founder",
   "ceo", "cto", "professional", "specialist", "expert", "consultant"]

/-- `interestKeywords` from `extractInsights`. -/
def interestKeywords : List String :=
  ["music", "art", "travel", "tech", "technology", "sports", "gaming",
   "photography", "writing", "reading", "cooking", "fitness"]

/-- `extractInsights` from google-osint.go. -/
def extractInsights (result0 : ProfileResult) : ProfileResult :=
  if !result0.Exists then result0
  else
    let result := if result0.Platform = "LinkedIn" ∨ result0.Platform = "GitHub" then
        { result0 with Insights := result0.Insights ++ ["Has professional online presence"] }
      else result0
    let result := if result.FollowerCount > 1000 then
        { result with Insights := result.Insights ++
          [s!"Social influence: {result.FollowerCount}+ followers on {result.Platform}"] }
      else result
    let result := if result.RecentActivity.length > 2 then
        { result with Insights := result.Insights ++
          [s!"Active on {result.Platform} with recent posts"] }
      else result
    if result.Bio ≠ "" then
      let bioLower := toLowerGo result.Bio
      let result := match professionalKeywords.find? (fun k => containsGo bioLower k) with
        | some keyword => { result with Insights := result.Insights ++
            [s!"Professional role: Mentions being a {keyword}"] }
        | none => result
      match interestKeywords.find? (fun k => containsGo bioLower k) with
      | some keyword => { result with Insights := result.Insights ++
          [s!"Interest: Mentions {keyword}"] }
      | none => result
    else result

/-! ### checkProfile / processSingleProfile (google-osint.go) -/

/-- Decimal rendering of a confidence with two fraction digits, modelling
fmt's %.2f for the values the validator produces (all are non-negative
multiples of 0.01, so no float rounding is involved). -/
def formatConf2 (q : ℚ) : String :=
  let cents : Int := (q * 100).floor
  let whole := cents / 100
  let frac := (cents % 100).toNat
  toString whole ++ "." ++ (if frac < 10 then "0" else "") ++ toString frac

/-- `fmt.Sprintf` over the catalog's one-verb profile patterns. -/
def sprintfPattern (pattern arg : String) : String := replaceAllGo pattern "%s" arg

/-- `checkProfile` from google-osint.go.  `vfetch` is the network outcome
seen by `ValidateProfile`; `efetch` is the extraction request (request
construction, transport and goquery parse errors collapsed to the error
message stored in `result.Error`). -/
def checkProfile (platform : SocialPlatform) (url username : String)
    (vfetch : FetchOutcome) (efetch : Except String Doc) : ProfileResult :=
  let result : ProfileResult :=
    { Platform := platform.Name, URL := url, Exists := false, Username := username,
      FullName := "", Bio := "", FollowerCount := 0, JoinDate := "", Avatar := "",
      Location := "", Connections := [], RecentActivity := [], Insights := [], Error := "" }
  let validation := ValidateProfile platform url "" vfetch
  if validation.StatusCode ≠ 200 then
    { result with Error := s!"HTTP Status: {validation.StatusCode} - " ++ validation.ErrorReason }
  else if validation.IsValid then
    let result := { result with
      Exists := true
      Insights := result.Insights ++
        ["Profile validation confidence: " ++ formatConf2 validation.Confidence] ++
        validation.Markers.map (fun marker => "Validation marker: " ++ marker) }
    match efetch with
    | .error msg => { result with Error := msg }
    | .ok doc =>
      let result := extractProfileInfo doc result platform
      let result := extractRecentActivity doc result platform
      let result := extractConnections doc result platform
      extractInsights result
  else result

/-- The retry loop of `processSingleProfile`: try attempts
`retry, retry+1, …` while the returned `Error` is non-empty and fuel
remains; the pair also reports how many attempts were made. -/
def runRetries (step : Nat → ProfileResult) : Nat → Nat → ProfileResult → ProfileResult × Nat
  | retry, 0, acc => (acc, retry)
  | retry, fuel+1, _ =>
    let r := step retry
    if r.Error = "" then (r, retry + 1)
    else runRetries step (retry + 1) fuel r

/-- `processSingleProfile` from google-osint.go; `net` gives the network
outcomes of attempt `retry`. -/
def processSingleProfile (platform : SocialPlatform) (term : String)
    (net : Nat → FetchOutcome × Except String Doc) : ProfileResult :=
  let urlTerm := toLowerGo (replaceAllGo term " " "")
  let profileURL := platform.URL ++ sprintfPattern platform.ProfilePattern urlTerm
  (runRetries (fun retry => checkProfile platform profileURL term (net retry).1 (net retry).2)
    0 maxRetries ProfileResult.zero).1

/-- A small sample document: every selector matches the same two nodes. -/
def sampleDoc : Doc := fun _ =>
  [{ text := "hello   world", attrs := [], isRelativeTimeTag := false },
   { text := "", attrs := [], isRelativeTimeTag := false }]

/-! ### Retry behaviour of processSingleProfile -/

/-- An attempt that receives an HTTP 404 response for the Twitter profile
URL (the extraction request is never reached on this path). -/
def attempt404 : Nat → ProfileResult := fun _ =>
  checkProfile (platformAt 0) "https://twitter.com/bob" "bob"
    (.ok 404 "" (.ok "nope")) (.error "unused")

/-! ### Go's `sort.Slice` (pdqsort, sort/zsortfunc.go of Go 1.19–1.23)

`SearchProfilesSequentially` sorts the final profile list with
`sort.Slice(results.Profiles, func(i, j int) bool { … Platform < … Platform })`.
`sort.Slice` is Go's pattern-defeating quicksort, documented as NOT stable.
The embedding below follows the generated `zsortfunc.go` function by
function over a `List α` state mutated only through `swapAt`; loops carry an
explicit fuel chosen at each call site to dominate the loop's iteration
count (each loop advances its counter by at least one per iteration), so the
model computes exactly what the Go code computes. -/

/-- `data.Swap(i, j)`; out-of-range indices (never produced by the sort)
leave the list unchanged. -/
def swapAt (data : List α) (i j : Nat) (dflt : α) : List α :=
  if i < data.length ∧ j < data.length then
    (data.set i (data.getD j dflt)).set j (data.getD i dflt)
  else data

/-- `data.Less(i, j)` of `lessSwap`: compare the current elements at `i`
and `j`. -/
def lessData (lt : α → α → Bool) (dflt : α) (data : List α) (i j : Nat) : Bool :=
  lt (data.getD i dflt) (data.getD j dflt)

/-- The inner shift loop of `insertionSort_func`. -/
def insertionInner (lt : α → α → Bool) (dflt : α) : Nat → List α → Nat → Nat → List α
  | 0, data, _, _ => data
  | fuel+1, data, j, a =>
    if j > a ∧ lessData lt dflt data j (j-1) then
      insertionInner lt dflt fuel (swapAt data j (j-1) dflt) (j-1) a
    else data

/-- The outer loop of `insertionSort_func`. -/
def insertionSortLoop (lt : α → α → Bool) (dflt : α) (a b : Nat) :
    Nat → List α → Nat → List α
  | 0, data, _ => data
  | fuel+1, data, i =>
    if i < b then
      insertionSortLoop lt dflt a b fuel (insertionInner lt dflt (i+1) data i a) (i+1)
    else data

/-- `insertionSort_func(data, a, b)`. -/
def insertionSortGo (lt : α → α → Bool) (dflt : α) (data : List α) (a b : Nat) : List α :=
  insertionSortLoop lt dflt a b (b+1) data (a+1)

/-- `siftDown_func(data, lo, hi, first)` (`lo` is the starting root). -/
def siftDownGo (lt : α → α → Bool) (dflt : α) (first hi : Nat) :
    Nat → List α → Nat → List α
  | 0, data, _ => data
  | fuel+1, data, root =>
    let child0 := 2*root + 1
    if child0 ≥ hi then data
    else
      let child := if child0 + 1 < hi ∧
          lessData lt dflt data (first+child0) (first+child0+1) then child0 + 1 else child0
      if ¬ lessData lt dflt data (first+root) (first+child) then data
      else siftDownGo lt dflt first hi fuel (swapAt data (first+root) (first+child) dflt) child

/-- The heap-construction loop of `heapSort_func` (`i` descends to 0). -/
def heapBuildLoop (lt : α → α → Bool) (dflt : α) (first hi : Nat) : List α → Nat → List α
  | data, 0 => siftDownGo lt dflt first hi (hi+1) data 0
  | data, i+1 => heapBuildLoop lt dflt first hi (siftDownGo lt dflt first hi (hi+1) data (i+1)) i

/-- The pop loop of `heapSort_func` (`i` descends to 0). -/
def heapPopLoop (lt : α → α → Bool) (dflt : α) (first : Nat) : List α → Nat → List α
  | data, 0 => siftDownGo lt dflt first 0 1 (swapAt data first (first + 0) dflt) 0
  | data, i+1 =>
    heapPopLoop lt dflt first
      (siftDownGo lt dflt first (i+1) (i+2) (swapAt data first (first + (i+1)) dflt) 0) i

/-- `heapSort_func(data, a, b)`; only reached with `b - a > 12`. -/
def heapSortGo (lt : α → α → Bool) (dflt : α) (data : List α) (a b : Nat) : List α :=
  let first := a
  let hi := b - a
  heapPopLoop lt dflt first (heapBuildLoop lt dflt first hi data ((hi - 1) / 2)) (hi - 1)

/-- `reverseRange_func`. -/
def reverseRangeGo (dflt : α) : Nat → List α → Nat → Nat → List α
  | 0, data, _, _ => data
  | fuel+1, data, i, j =>
    if i < j then reverseRangeGo dflt fuel (swapAt data i j dflt) (i+1) (j-1) else data

/-- One step of the `xorshift` generator seeded by the slice length. -/
def xorshiftNext (r : Nat) : Nat :=
  let r1 := (r ^^^ ((r <<< 13) % 2^64)) % 2^64
  let r2 := (r1 ^^^ (r1 >>> 7)) % 2^64
  (r2 ^^^ ((r2 <<< 17) % 2^64)) % 2^64

/-- Halving recursion for `bits.Len`, with explicit fuel (`fuel ≥ n`
suffices since the argument at least halves each step). -/
def bitsLenAux : Nat → Nat → Nat
  | 0, _ => 0
  | fuel + 1, n => if n = 0 then 0 else bitsLenAux fuel (n / 2) + 1

/-- `bits.Len` on an unsigned length. -/
def bitsLen (n : Nat) : Nat := bitsLenAux n n

/-- One iteration of `breakPatterns_func`'s swap loop. -/
def breakIter (dflt : α) (a length modulus idx : Nat) (st : List α × Nat) (i : Nat) :
    List α × Nat :=
  let r := xorshiftNext st.2
  let other := r &&& (modulus - 1)
  let other := if other ≥ length then other - length else other
  (swapAt st.1 (idx - 1 + i) (a + other) dflt, r)

/-- `breakPatterns_func(data, a, b)`; deterministic — the generator is
seeded with the range's length. -/
def breakPatternsGo (dflt : α) (data : List α) (a b : Nat) : List α :=
  let length := b - a
  if length ≥ 8 then
    let modulus := 1 <<< bitsLen length
    let idx := a + (length / 4) * 2 - 1
    (([0, 1, 2].foldl (breakIter dflt a length modulus idx) (data, length))).1
  else data

/-- The sortedness hints of `choosePivot_func`. -/
inductive SortedHint where
  | increasing
  | decreasing
  | unknown
deriving DecidableEq, Repr

/-- `order2_func`: the two indices in order, and the updated swap count. -/
def order2Go (lt : α → α → Bool) (dflt : α) (data : List α) (a b swaps : Nat) :
    Nat × Nat × Nat :=
  if lessData lt dflt data b a then (b, a, swaps + 1) else (a, b, swaps)

/-- `median_func`. -/
def medianGo (lt : α → α → Bool) (dflt : α) (data : List α) (a b c swaps : Nat) :
    Nat × Nat :=
  match order2Go lt dflt data a b swaps with
  | (a1, b1, s1) =>
    match order2Go lt dflt data b1 c s1 with
    | (b2, _, s2) =>
      match order2Go lt dflt data a1 b2 s2 with
      | (_, b3, s3) => (b3, s3)

/-- `medianAdjacent_func`. -/
def medianAdjacentGo (lt : α → α → Bool) (dflt : α) (data : List α) (a swaps : Nat) :
    Nat × Nat :=
  medianGo lt dflt data (a-1) a (a+1) swaps

/-- The hint derived from `choosePivot_func`'s swap count (maxSwaps = 12). -/
def hintOfSwaps (swaps : Nat) : SortedHint :=
  if swaps = 0 then .increasing else if swaps = 12 then .decreasing else .unknown

/-- `choosePivot_func(data, a, b)`. -/
def choosePivotGo (lt : α → α → Bool) (dflt : α) (data : List α) (a b : Nat) :
    Nat × SortedHint :=
  let l := b - a
  let i0 := a + l / 4 * 1
  let j0 := a + l / 4 * 2
  let k0 := a + l / 4 * 3
  if l ≥ 8 then
    if l ≥ 50 then
      match medianAdjacentGo lt dflt data i0 0 with
      | (i1, s1) =>
        match medianAdjacentGo lt dflt data j0 s1 with
        | (j1, s2) =>
          match medianAdjacentGo lt dflt data k0 s2 with
          | (k1, s3) =>
            match medianGo lt dflt data i1 j1 k1 s3 with
            | (j2, s4) => (j2, hintOfSwaps s4)
    else
      match medianGo lt dflt data i0 j0 k0 0 with
      | (j2, s4) => (j2, hintOfSwaps s4)
  else (j0, .increasing)

/-- The advance loop of `partialInsertionSort_func`. -/
def pisAdvance (lt : α → α → Bool) (dflt : α) (b : Nat) (data : List α) :
    Nat → Nat → Nat
  | 0, i => i
  | fuel+1, i =>
    if i < b ∧ ¬ lessData lt dflt data i (i-1) then pisAdvance lt dflt b data fuel (i+1)
    else i

/-- The left-shift loop of `partialInsertionSort_func` (`j` descends; stops
below 1). -/
def pisShiftLeft (lt : α → α → Bool) (dflt : α) : List α → Nat → List α
  | data, 0 => data
  | data, j+1 =>
    if ¬ lessData lt dflt data (j+1) j then data
    else pisShiftLeft lt dflt (swapAt data (j+1) j dflt) j

/-- The right-shift loop of `partialInsertionSort_func`. -/
def pisShiftRight (lt : α → α → Bool) (dflt : α) (b : Nat) : Nat → List α → Nat → List α
  | 0, data, _ => data
  | fuel+1, data, j =>
    if j < b then
      if ¬ lessData lt dflt data j (j-1) then data
      else pisShiftRight lt dflt b fuel (swapAt data j (j-1) dflt) (j+1)
    else data

/-- The bounded outer loop of `partialInsertionSort_func` (maxSteps = 5,
shortestShifting = 50). -/
def partialInsertionSortLoop (lt : α → α → Bool) (dflt : α) (a b : Nat) :
    List α → Nat → Nat → List α × Bool
  | data, _, 0 => (data, false)
  | data, i, steps+1 =>
    let i := pisAdvance lt dflt b data (b+1) i
    if i = b then (data, true)
    else if b - a < 50 then (data, false)
    else
      let data := swapAt data i (i-1) dflt
      let data := if i - a ≥ 2 then pisShiftLeft lt dflt data (i-1) else data
      let data := if b - i ≥ 2 then pisShiftRight lt dflt b (b+1) data (i+1) else data
      partialInsertionSortLoop lt dflt a b data i steps

/-- `partialInsertionSort_func(data, a, b)`. -/
def partialInsertionSortGo (lt : α → α → Bool) (dflt : α) (data : List α) (a b : Nat) :
    List α × Bool :=
  partialInsertionSortLoop lt dflt a b data (a+1) 5

/-- `for i <= j && data.Less(i, a) { i++ }` of `partition_func`. -/
def partSkipI (lt : α → α → Bool) (dflt : α) (data : List α) (a : Nat) :
    Nat → Nat → Nat → Nat
  | 0, i, _ => i
  | fuel+1, i, j =>
    if i ≤ j ∧ lessData lt dflt data i a then partSkipI lt dflt data a fuel (i+1) j else i

/-- `for i <= j && !data.Less(j, a) { j-- }` of `partition_func`. -/
def partSkipJ (lt : α → α → Bool) (dflt : α) (data : List α) (a : Nat) :
    Nat → Nat → Nat → Nat
  | 0, _, j => j
  | fuel+1, i, j =>
    if i ≤ j ∧ ¬ lessData lt dflt data j a then partSkipJ lt dflt data a fuel i (j-1) else j

/-- The main loop of `partition_func`; returns the state and final `i`, `j`. -/
def partitionLoop (lt : α → α → Bool) (dflt : α) (a b : Nat) :
    Nat → List α → Nat → Nat → List α × Nat × Nat
  | 0, data, i, j => (data, i, j)
  | fuel+1, data, i, j =>
    let i := partSkipI lt dflt data a (b+1) i j
    let j := partSkipJ lt dflt data a (b+1) i j
    if i > j then (data, i, j)
    else partitionLoop lt dflt a b fuel (swapAt data i j dflt) (i+1) (j-1)

/-- `partition_func(data, a, b, pivot) = (newpivot, alreadyPartitioned)`. -/
def partitionGo (lt : α → α → Bool) (dflt : α) (data : List α) (a b pivot : Nat) :
    List α × Nat × Bool :=
  let data := swapAt data a pivot dflt
  let i := a + 1
  let j := b - 1
  let i := partSkipI lt dflt data a (b+1) i j
  let j := partSkipJ lt dflt data a (b+1) i j
  if i > j then (swapAt data j a dflt, j, true)
  else
    let data := swapAt data i j dflt
    let r := partitionLoop lt dflt a b (b+1) data (i+1) (j-1)
    (swapAt r.1 r.2.2 a dflt, r.2.2, false)

/-- `for i <= j && !data.Less(a, i) { i++ }` of `partitionEqual_func`. -/
def peSkipI (lt : α → α → Bool) (dflt : α) (data : List α) (a : Nat) :
    Nat → Nat → Nat → Nat
  | 0, i, _ => i
  | fuel+1, i, j =>
    if i ≤ j ∧ ¬ lessData lt dflt data a i then peSkipI lt dflt data a fuel (i+1) j else i

/-- `for i <= j && data.Less(a, j) { j-- }` of `partitionEqual_func`. -/
def peSkipJ (lt : α → α → Bool) (dflt : α) (data : List α) (a : Nat) :
    Nat → Nat → Nat → Nat
  | 0, _, j => j
  | fuel+1, i, j =>
    if i ≤ j ∧ lessData lt dflt data a j then peSkipJ lt dflt data a fuel i (j-1) else j

/-- The loop of `partitionEqual_func`; returns the state and final `i`. -/
def partitionEqualLoop (lt : α → α → Bool) (dflt : α) (a b : Nat) :
    Nat → List α → Nat → Nat → List α × Nat
  | 0, data, i, _ => (data, i)
  | fuel+1, data, i, j =>
    let i := peSkipI lt dflt data a (b+1) i j
    let j := peSkipJ lt dflt data a (b+1) i j
    if i > j then (data, i)
    else partitionEqualLoop lt dflt a b fuel (swapAt data i j dflt) (i+1) (j-1)

/-- `partitionEqual_func(data, a, b, pivot) = newpivot`. -/
def partitionEqualGo (lt : α → α → Bool) (dflt : α) (data : List α) (a b pivot : Nat) :
    List α × Nat :=
  partitionEqualLoop lt dflt a b (b+1) (swapAt data a pivot dflt) (a+1) (b-1)

/-- The partition phase at the end of one `pdqsort_func` iteration: the
many-duplicates `partitionEqual` shortcut, or a `partition` followed by
recursing into the shorter side and looping on the longer (`rec` receives
the remaining fuel). -/
def pdqPartitionPhase (lt : α → α → Bool) (dflt : α)
    (rec : List α → Nat → Nat → Nat → Bool → Bool → List α)
    (data3 : List α) (a b limit1 pivot2 length : Nat) (wb wp : Bool) : List α :=
  if a > 0 ∧ ¬ lessData lt dflt data3 (a-1) pivot2 then
    let per := partitionEqualGo lt dflt data3 a b pivot2
    rec per.1 per.2 b limit1 wb wp
  else
    let pt := partitionGo lt dflt data3 a b pivot2
    let mid := pt.2.1
    let leftLen := mid - a
    let rightLen := b - mid
    let newBalanced := decide (min leftLen rightLen ≥ length / 8)
    if leftLen < rightLen then
      rec (rec pt.1 a mid limit1 true true) (mid+1) b limit1 newBalanced pt.2.2
    else
      rec (rec pt.1 (mid+1) b limit1 true true) a mid limit1 newBalanced pt.2.2

/-- The `partialInsertionSort` shortcut of one `pdqsort_func` iteration:
run it only when the last partitioning was balanced and already partitioned
and the pivot hint says increasing. -/
def pdqPisPhase (lt : α → α → Bool) (dflt : α) (data2 : List α) (a b : Nat)
    (hint2 : SortedHint) (wb wp : Bool) : List α × Bool :=
  if wb ∧ wp ∧ hint2 = SortedHint.increasing then partialInsertionSortGo lt dflt data2 a b
  else (data2, false)

/-- The body of one iteration of `pdqsort_func`'s outer loop past the two
terminal tests, with the recursive/looping calls abstracted as `rec`:
the optional `breakPatterns`/`limit--`, pivot choice, the reversal of a
decreasing range, the `partialInsertionSort` shortcut, and the partition
phase. -/
def pdqsortStep (lt : α → α → Bool) (dflt : α)
    (rec : List α → Nat → Nat → Nat → Bool → Bool → List α)
    (data : List α) (a b limit : Nat) (wasBalanced wasPartitioned : Bool) : List α :=
  let length := b - a
  let data1 := if ¬ wasBalanced then breakPatternsGo dflt data a b else data
  let limit1 := if ¬ wasBalanced then limit - 1 else limit
  let pv := choosePivotGo lt dflt data1 a b
  let data2 := if pv.2 = SortedHint.decreasing then reverseRangeGo dflt (b+1) data1 a (b-1)
    else data1
  let pivot2 := if pv.2 = SortedHint.decreasing then (b-1) - (pv.1 - a) else pv.1
  let hint2 := if pv.2 = SortedHint.decreasing then SortedHint.increasing else pv.2
  let pr := pdqPisPhase lt dflt data2 a b hint2 wasBalanced wasPartitioned
  if pr.2 then pr.1
  else pdqPartitionPhase lt dflt rec pr.1 a b limit1 pivot2 length wasBalanced wasPartitioned

/-- `pdqsort_func(data, a, b, limit)`.  The fuel dominates the number of
iterations of the outer `for` loop (every iteration either returns or
shrinks `b - a` by at least one, so `b - a + 1` at the top-level call is
enough and the invariant `fuel ≥ b - a + 1` is preserved downward). -/
def pdqsortGo (lt : α → α → Bool) (dflt : α) :
    Nat → List α → Nat → Nat → Nat → Bool → Bool → List α
  | 0, data, _, _, _, _, _ => data
  | fuel+1, data, a, b, limit, wasBalanced, wasPartitioned =>
    if b - a ≤ 12 then insertionSortGo lt dflt data a b
    else if limit = 0 then heapSortGo lt dflt data a b
    else pdqsortStep lt dflt (pdqsortGo lt dflt fuel) data a b limit wasBalanced wasPartitioned

/-- `sort.Slice(x, less)`: `limit = bits.Len(uint(length))`. -/
def sortSliceGo (lt : α → α → Bool) (dflt : α) (data : List α) : List α :=
  pdqsortGo lt dflt (data.length + 1) data 0 data.length (bitsLen data.length) true true

/-- Go's `<` on strings: lexicographic byte order (code-point order on the
ASCII platform names in play). -/
def stringLtGo : List Char → List Char → Bool
  | [], [] => false
  | [], _ :: _ => true
  | _ :: _, [] => false
  | a :: as, b :: bs => if a < b then true else if b < a then false else stringLtGo as bs

/-- The comparator of the final sort in `SearchProfilesSequentially`:
`results.Profiles[i].Platform < results.Profiles[j].Platform`. -/
def profileLess (x y : ProfileResult) : Bool :=
  stringLtGo x.Platform.data y.Platform.data

/-- The final `sort.Slice` call of `SearchProfilesSequentially`. -/
def sortProfiles (profiles : List ProfileResult) : List ProfileResult :=
  sortSliceGo profileLess ProfileResult.zero profiles

/-! ### Result aggregation and the run's returned error
(`SearchProfilesSequentially`, google-osint.go) -/

/-- The state of the result-collection loop: the `processedProfiles` map
(its key set) and the accumulating `results`. -/
structure AggState where
  processedProfiles : List String
  results : SocialMediaResults
deriving Repr

/-- One iteration of the `for result := range resultsChan` loop: mark the
URL, then merge the result when it `Exists`. -/
def collectStep (st : AggState) (result : ProfileResult) : AggState :=
  if result.URL ∈ st.processedProfiles then st
  else
    let st := { st with processedProfiles := st.processedProfiles ++ [result.URL] }
    if result.Exists then
      { st with results := { st.results with
          ProfilesFound := st.results.ProfilesFound + 1
          Profiles := st.results.Profiles ++ [result] } }
    else st

/-- The aggregation stage of `SearchProfilesSequentially` over the sequence
of results received on `resultsChan`. -/
def collectResults (query timestamp : String) (received : List ProfileResult) :
    SocialMediaResults :=
  (received.foldl collectStep
    { processedProfiles := []
      results := { Query := query, Timestamp := timestamp, ProfilesFound := 0,
                   Profiles := [] } }).results

/-- What a worker sends on the run's two channels while processing one work
item: `resultsChan` receives the processed result exactly when it `Exists`;
no statement in the worker body sends on `errorsChan`. -/
structure ChannelTraffic where
  sentResults : List ProfileResult
  sentErrors : List String
deriving Repr

/-- The channel traffic of one worker-loop iteration (the body of the
`for work := range workChan` loop). -/
def workItemTraffic (net : workItem → Nat → FetchOutcome × Except String Doc)
    (work : workItem) : ChannelTraffic :=
  let result := processSingleProfile work.platform work.term (net work)
  { sentResults := if result.Exists then [result] else [], sentErrors := [] }

/-- Accumulate one work item's channel traffic. -/
def trafficStep (net : workItem → Nat → FetchOutcome × Except String Doc)
    (acc : ChannelTraffic) (work : workItem) : ChannelTraffic :=
  { sentResults := acc.sentResults ++ (workItemTraffic net work).sentResults
    sentErrors := acc.sentErrors ++ (workItemTraffic net work).sentErrors }

/-- The combined channel traffic of a run over its work items, in one
arbitrary interleaving (workers run concurrently; the aggregate set of sent
values is interleaving-independent). -/
def runTraffic (net : workItem → Nat → FetchOutcome × Except String Doc)
    (items : List workItem) : ChannelTraffic :=
  items.foldl (trafficStep net) { sentResults := [], sentErrors := [] }

/-- The work set built by the feeder goroutine: `platforms × searchTerms`. -/
def buildWorkItems (searchTerms : List String) : List workItem :=
  platforms.flatMap (fun platform =>
    searchTerms.map (fun term => { platform := platform, term := term }))

/-- The return of `SearchProfilesSequentially`, one constructor per
`return` statement of the function's tail. -/
inductive RunOutcome where
  /-- `return nil, fmt.Errorf("worker error: %v", err)` when `g.Wait()`
  reports an error — no results value is returned. -/
  | workerFatal (err : String)
  /-- `return results, fmt.Errorf("encountered %d errors during scanning", n)`
  when `len(errorsChan) > 0` (before sorting). -/
  | partialWithSummary (results : SocialMediaResults) (err : String)
  /-- `return results, fmt.Errorf("error saving results: %v", err)`. -/
  | saveFailed (results : SocialMediaResults) (err : String)
  /-- `return results, nil`. -/
  | ok (results : SocialMediaResults)
deriving Repr

/-- The tail of `SearchProfilesSequentially` after the workers are joined:
the `g.Wait()` check, result collection, the errors-channel check, the final
sort and the optional save. -/
def searchFinish (query timestamp : String) (gWaitErr : Option String)
    (received : List ProfileResult) (errorsChanLen : Nat) (outputPath : String)
    (saveErr : Option String) : RunOutcome :=
  match gWaitErr with
  | some err => .workerFatal ("worker error: " ++ err)
  | none =>
    let results := collectResults query timestamp received
    if errorsChanLen > 0 then
      .partialWithSummary results (s!"encountered {errorsChanLen} errors during scanning")
    else
      let results := { results with Profiles := sortProfiles results.Profiles }
      if outputPath ≠ "" then
        match saveErr with
        | some err => .saveFailed results ("error saving results: " ++ err)
        | none => .ok results
      else .ok results

/-- `SearchProfilesSequentially` composed end to end: worker channel
traffic, then the collection/return tail. -/
def SearchProfilesSequentially (query timestamp : String)
    (net : workItem → Nat → FetchOutcome × Except String Doc) (items : List workItem)
    (gWaitErr : Option String) (outputPath : String) (saveErr : Option String) :
    RunOutcome :=
  let traffic := runTraffic net items
  searchFinish query timestamp gWaitErr traffic.sentResults traffic.sentErrors.length
    outputPath saveErr

/-! ### VariationGenerator (public/variations/variations.go) -/

/-- Key insertion into the `variations` map: the key set in first-insertion
order (membership matches Go's map; the emission order of `range` is
modelled separately in `getNameVariationsRun`). -/
def insertVar (l : List String) (s : String) : List String :=
  if s ∈ l then l else l ++ [s]

/-- Insert several keys in sequence. -/
def insertVars (l : List String) (ss : List String) : List String :=
  ss.foldl insertVar l

/-- The first character of a Go slice expression `s[0:1]`. -/
def take1 (s : String) : String := ⟨s.data.take 1⟩

/-- The first two characters of `s[0:2]`. -/
def take2 (s : String) : String := ⟨s.data.take 2⟩

/-- The letter→symbol table of the l33t block, in source-text order (the
source iterates a Go map; the inserted key set does not depend on that
order). -/
def l33tPairs : List (String × String) :=
  [("a", "@"), ("e", "3"), ("i", "1"), ("o", "0"), ("s", "5"), ("t", "7"), ("u", "v")]

/-- The `commonPatterns` slice of the two-name branch (the six
initial-pair patterns are appended only when both names have length ≥ 2). -/
def commonPatternsList (lowerFirst lowerLast : String) : List String :=
  [lowerFirst ++ lowerLast,
   lowerFirst ++ "." ++ lowerLast,
   lowerFirst ++ "_" ++ lowerLast,
   lowerLast ++ lowerFirst,
   lowerLast ++ "." ++ lowerFirst,
   lowerLast ++ "_" ++ lowerFirst,
   take1 lowerFirst ++ lowerLast,
   lowerFirst ++ take1 lowerLast,
   take1 lowerFirst ++ "." ++ lowerLast,
   take1 lowerFirst ++ "_" ++ lowerLast] ++
  (if lowerFirst.length ≥ 2 ∧ lowerLast.length ≥ 2 then
    [take2 lowerFirst ++ lowerLast,
     take2 lowerFirst ++ "." ++ lowerLast,
     take2 lowerFirst ++ "_" ++ lowerLast,
     lowerFirst ++ take2 lowerLast,
     lowerFirst ++ "." ++ take2 lowerLast,
     lowerFirst ++ "_" ++ take2 lowerLast]
  else [])

/-- The `years` slice of the two-name branch: sentinels plus each year of
the last 31 and its last two digits. -/
def goYears (currentYear : Nat) : List String :=
  ["", "1", "123", "321"] ++
    ((List.range' (currentYear - 30) 31).flatMap
      (fun y => [toString y, toString (y % 100)]))

/-- The nested number-suffix loops of the two-name branch. -/
def numberFold (years pats : List String) (vs : List String) : List String :=
  pats.foldl (fun vs pattern =>
    years.foldl (fun vs num =>
      if num ≠ "" then insertVar vs (pattern ++ num) else vs) vs) vs

/-- The l33t-substitution loop over the base pattern. -/
def l33tFold (basePattern : String) (vs : List String) : List String :=
  l33tPairs.foldl (fun vs pr =>
    if containsGo basePattern pr.1 then
      insertVar vs (replaceAllGo basePattern pr.1 pr.2)
    else vs) vs

/-- The two-name branch of `GetNameVariations` (both first and last name
present): common patterns, year/number suffixes on the highest-signal
patterns, and the l33t substitutions of the primary concatenation. -/
def variationsWithLast (currentYear : Nat) (lowerFirst lowerLast : String)
    (variations0 : List String) : List String :=
  let variations := insertVar variations0 lowerLast
  let variations := insertVars variations (commonPatternsList lowerFirst lowerLast)
  let variations := numberFold (goYears currentYear)
    [lowerFirst ++ lowerLast, take1 lowerFirst ++ lowerLast, lowerLast ++ lowerFirst]
    variations
  if (lowerFirst ++ lowerLast).data.any
      (fun c => c = 'a' ∨ c = 'e' ∨ c = 'i' ∨ c = 'o' ∨ c = 's' ∨ c = 't' ∨ c = 'u') then
    l33tFold (lowerFirst ++ lowerLast) variations
  else variations

/-- The single-name branch of `GetNameVariations`: number/two-digit-year
suffixes on the lowercase name. -/
def variationsSingle (currentYear : Nat) (lowerFirst : String)
    (variations0 : List String) : List String :=
  let years := ["123", "321"] ++
    ((List.range' (currentYear - 20) 21).map (fun y => toString (y % 100)))
  years.foldl (fun vs num => insertVar vs (lowerFirst ++ num)) variations0

/-- The key set of `GetNameVariations`' `variations` map in first-insertion
order, with the clock (`time.Now().Year()`) an explicit parameter.  Returns
`[]` (Go `nil`) when the trimmed input has no fields.  The JSON audit-file
side effect is outside the model. -/
def getNameVariationsList (currentYear : Nat) (fullName0 : String) : List String :=
  let fullName := trimSpaceGo fullName0
  let parts := fieldsGo fullName
  if parts.isEmpty then []
  else
    let firstName := parts.headD ""
    let lastName := if parts.length > 1 then (parts.getLast?).getD "" else ""
    let lowerFirst := toLowerGo firstName
    let variations := insertVar [] fullName
    let variations := insertVar variations lowerFirst
    let variations := if firstName.length ≥ 3 then
        insertVars variations ((List.range' 3 (min 5 firstName.length - 2)).map
          (fun i => toLowerGo ⟨firstName.data.take i⟩))
      else variations
    if lastName ≠ "" then variationsWithLast currentYear lowerFirst (toLowerGo lastName) variations
    else variationsSingle currentYear lowerFirst variations

/-- One run of `GetNameVariations`: Go's `for v := range variations` emits
the key set in an unspecified order, modelled by an arbitrary admissible
enumeration `π` (any function whose output is a permutation of its input). -/
def getNameVariationsRun (π : List String → List String) (currentYear : Nat)
    (fullName : String) : List String :=
  π (getNameVariationsList currentYear fullName)

/-! ### C6: the final sort -/

/-- A profile record that differs from the zero record only in its platform
name and URL. -/
def mkProfile (p u : String) : ProfileResult :=
  { ProfileResult.zero with
    Platform := p
    URL := u }

/-- Thirteen aggregated profiles: one on platform "B" received first, then
twelve on platform "A" in insertion order u1..u12. -/
def c6Received : List ProfileResult :=
  [mkProfile "B" "u0", mkProfile "A" "u1", mkProfile "A" "u2", mkProfile "A" "u3",
   mkProfile "A" "u4", mkProfile "A" "u5", mkProfile "A" "u6", mkProfile "A" "u7",
   mkProfile "A" "u8", mkProfile "A" "u9", mkProfile "A" "u10", mkProfile "A" "u11",
   mkProfile "A" "u12"]

/-! ### C3: aggregation invariants -/

/-- The loop invariant of the result-collection stage: the profile count
matches, URLs are pairwise distinct, and every merged profile exists and
has its URL marked processed. -/
def AggInv (st : AggState) : Prop :=
  st.results.ProfilesFound = st.results.Profiles.length ∧
  (st.results.Profiles.map ProfileResult.URL).Nodup ∧
  ∀ p ∈ st.results.Profiles, p.Exists = true ∧ p.URL ∈ st.processedProfiles

theorem platformSpecificChecks_conf (platformName username finalURL body : String)
    (r : ValidationResult) (h0 : 0 ≤ r.Confidence) (h1 : r.Confidence ≤ 7/10) :
    confWithinBounds (platformSpecificChecks platformName username finalURL body r) := by
  have hsec : ((["experience-section", "education-section", "skills-section"].filter
      (fun sec => containsGo body sec)).length : ℚ) ≤ 3 := by
    have := List.length_filter_le (fun sec => containsGo body sec)
      ["experience-section", "education-section", "skills-section"]
    have h3 : (List.filter (fun sec => containsGo body sec)
        ["experience-section", "education-section", "skills-section"]).length ≤ 3 := by
      simpa using this
    exact_mod_cast h3
  have hnn : (0 : ℚ) ≤ ((["experience-section", "education-section", "skills-section"].filter
      (fun sec => containsGo body sec)).length : ℚ) := Nat.cast_nonneg _
  unfold platformSpecificChecks
  dsimp only
  split_ifs <;> simp only [confWithinBounds] <;> norm_num <;>
    first
      | (constructor <;> linarith)
      | linarith

theorem applyIndicators_conf (bodyContent : String) (r : ValidationResult)
    (h0 : 0 ≤ r.Confidence) (h1 : r.Confidence ≤ 99/100) :
    0 ≤ (applyIndicators bodyContent r).Confidence ∧
    (applyIndicators bodyContent r).Confidence ≤ 1 := by
  have hmin : (0 : ℚ) ≤ min ((((realUserIndicators.filter (fun pr =>
      containsGo (toLowerGo bodyContent) (toLowerGo pr.1))).length) : ℚ) * 0.05) 0.3 :=
    le_min (by positivity) (by norm_num)
  have hmin2 : min ((((realUserIndicators.filter (fun pr =>
      containsGo (toLowerGo bodyContent) (toLowerGo pr.1))).length) : ℚ) * 0.05) (0.3 : ℚ)
      ≤ 0.3 := min_le_right _ _
  unfold applyIndicators
  dsimp only
  split_ifs with hk hcap hcap2 <;> dsimp only at * <;> constructor <;>
    first
      | (norm_num; done)
      | (norm_num at hmin hmin2 hcap ⊢; linarith)
      | (norm_num at hmin hmin2 hcap2 ⊢; linarith)
      | (norm_num at hmin hmin2 ⊢; linarith)
      | linarith

theorem validate200_conf (platformName username finalURL bodyContent : String)
    (r1 : ValidationResult) (h : r1.Confidence = 7/10) :
    0 ≤ (match platformSpecificChecks platformName username finalURL bodyContent r1 with
         | .error final => final
         | .ok r => applyIndicators bodyContent r).Confidence ∧
    (match platformSpecificChecks platformName username finalURL bodyContent r1 with
         | .error final => final
         | .ok r => applyIndicators bodyContent r).Confidence ≤ 1 := by
  have hb := platformSpecificChecks_conf platformName username finalURL bodyContent r1
    (by rw [h]; norm_num) (by rw [h])
  rcases hps : platformSpecificChecks platformName username finalURL bodyContent r1 with e | r2 <;>
    rw [hps] at hb <;> simp only [confWithinBounds] at hb <;> simp only [hps]
  · exact hb
  · exact applyIndicators_conf bodyContent r2 hb.1 hb.2

/-- C4: for every input response — any status code, any body, any transport
outcome — `ValidateProfile` returns a confidence in the closed interval
[0, 1]: the platform-specific heuristic increments plus the capped
cross-platform indicator bonus are clamped at 1.0, and no path produces a
negative value. -/
theorem ValidateProfile_confidence_in_unit_interval (platform : SocialPlatform)
    (url username : String) (fetch : FetchOutcome) :
    0 ≤ (ValidateProfile platform url username fetch).Confidence ∧
    (ValidateProfile platform url username fetch).Confidence ≤ 1 := by
  unfold ValidateProfile
  cases fetch with
  | reqError msg => norm_num
  | doError msg => norm_num
  | ok statusCode finalURL bodyRead =>
    dsimp only
    split_ifs with hred h404 h403 h429 <;> try norm_num
    all_goals (
      cases bodyRead with
      | error msg => norm_num
      | ok bodyContent =>
        dsimp only
        cases hfind : nonExistentPhrases.find? (fun phrase =>
            containsGo (toLowerGo bodyContent) (toLowerGo phrase)) with
        | some phrase => simp only [hfind]; norm_num
        | none =>
          simp only [hfind]
          first
            | exact validate200_conf platform.Name username finalURL bodyContent _ (by norm_num)
            | norm_num)

/-- C5: for every response with HTTP status 404 or 410, `ValidateProfile`
returns `IsValid = false`, and the result does not depend on the platform:
the platform-specific marker matching (guarded by status 200) is never
evaluated, so validating against any two platforms gives identical results. -/
theorem ValidateProfile_404_410_terminal (p q : SocialPlatform) (url username : String)
    (statusCode : Nat) (finalURL : String) (bodyRead : Except String String)
    (h : statusCode = 404 ∨ statusCode = 410) :
    (ValidateProfile p url username (.ok statusCode finalURL bodyRead)).IsValid = false ∧
    ValidateProfile p url username (.ok statusCode finalURL bodyRead) =
      ValidateProfile q url username (.ok statusCode finalURL bodyRead) := by
  rcases h with h | h <;> subst h <;> constructor <;> unfold ValidateProfile <;> dsimp only <;>
    split_ifs <;>
    first
      | (exfalso; omega)
      | rfl
      | (norm_num; done)
      | (cases bodyRead with
         | error msg => rfl
         | ok body =>
           rcases hfind : nonExistentPhrases.find? (fun phrase =>
               containsGo (toLowerGo body) (toLowerGo phrase)) with _ | phrase <;>
             simp only [hfind] <;> rfl)

theorem ValidateProfile_404_410_terminal_witness :
    (ValidateProfile (platformAt 0) "https://twitter.com/bob" "bob"
        (.ok 404 "" (.ok "some body"))).IsValid = false ∧
    ValidateProfile (platformAt 0) "https://twitter.com/bob" "bob"
        (.ok 404 "" (.ok "some body")) =
      ValidateProfile (platformAt 4) "https://twitter.com/bob" "bob"
        (.ok 404 "" (.ok "some body")) :=
  ValidateProfile_404_410_terminal (platformAt 0) (platformAt 4) "https://twitter.com/bob"
    "bob" 404 "" (.ok "some body") (Or.inl rfl)

/-! ### Bounds of the extraction lists -/

theorem mem_collapseWS {c : Char} : ∀ {l : List Char}, c ∈ collapseWS l →
    c = ' ' ∨ (c ∈ l ∧ isRegexSpace c = false) := by
  intro l
  induction l using collapseWS.induct with
  | case1 =>
      intro h
      rw [collapseWS] at h
      exact absurd h (List.not_mem_nil c)
  | case2 c' rest hsp ih =>
      intro h
      rw [collapseWS, if_pos hsp] at h
      rcases List.mem_cons.mp h with h | h
      · exact Or.inl h
      · rcases ih h with h | ⟨hm, hns⟩
        · exact Or.inl h
        · exact Or.inr ⟨List.mem_cons_of_mem _ ((List.dropWhile_sublist _).subset hm), hns⟩
  | case3 c' rest hsp ih =>
      intro h
      rw [collapseWS, if_neg (by simp_all)] at h
      rcases List.mem_cons.mp h with h | h
      · subst h
        exact Or.inr ⟨List.mem_cons_self _ _, by simpa using hsp⟩
      · rcases ih h with h | ⟨hm, hns⟩
        · exact Or.inl h
        · exact Or.inr ⟨List.mem_cons_of_mem _ hm, hns⟩

/-- The output of `cleanText` never contains a newline: the regex collapse
turns every whitespace run (newlines included) into a single space. -/
theorem cleanText_no_newline (t : String) : '\n' ∉ (cleanText t).data := by
  intro hmem
  have h1 : '\n' ∈ collapseWS (replaceAllGo t "\n" " ").toList := by
    have h2 := hmem
    unfold cleanText trimSpaceGo at h2
    simp only [String.toList] at h2 ⊢
    have h3 := (List.dropWhile_sublist (l :=
      ((collapseWS (replaceAllGo t "\n" " ").data).dropWhile isSpaceGo).reverse)
      isSpaceGo).subset (List.mem_reverse.mp h2)
    exact (List.dropWhile_sublist isSpaceGo).subset (List.mem_reverse.mp h3)
  rcases mem_collapseWS h1 with h | ⟨_, hns⟩
  · exact absurd h (by decide)
  · exact absurd hns (by decide)

/-- Truncation bound of one activity entry. -/
theorem activity_entry_ok (s : String) :
    (if (cleanText s).length > 100 then (cleanText s).take 97 ++ "..." else cleanText s).length ≤ 100 ∧
    '\n' ∉ (if (cleanText s).length > 100 then (cleanText s).take 97 ++ "..." else cleanText s).data := by
  split_ifs with h
  · constructor
    · rw [String.length_append, String.take_eq]
      have : ((cleanText s).data.take 97).length ≤ 97 := by
        simp [List.length_take]
      simp only [String.length]
      simp only [String.length] at this
      simp only [List.length_cons, List.length_nil]
      omega
    · rw [String.data_append, String.take_eq]
      intro hmem
      rcases List.mem_append.mp hmem with hmem | hmem
      · exact cleanText_no_newline s ((List.take_sublist _ _).subset hmem)
      · simp at hmem
  · exact ⟨Nat.le_of_not_lt h, cleanText_no_newline s⟩

/-- Truncation bound of one connections entry. -/
theorem connections_entry_ok (s : String) :
    (if (cleanText s).length > 50 then (cleanText s).take 47 ++ "..." else cleanText s).length ≤ 50 ∧
    '\n' ∉ (if (cleanText s).length > 50 then (cleanText s).take 47 ++ "..." else cleanText s).data := by
  split_ifs with h
  · constructor
    · rw [String.length_append, String.take_eq]
      have : ((cleanText s).data.take 47).length ≤ 47 := by
        simp [List.length_take]
      simp only [String.length]
      simp only [String.length] at this
      simp only [List.length_cons, List.length_nil]
      omega
    · rw [String.data_append, String.take_eq]
      intro hmem
      rcases List.mem_append.mp hmem with hmem | hmem
      · exact cleanText_no_newline s ((List.take_sublist _ _).subset hmem)
      · simp at hmem
  · exact ⟨Nat.le_of_not_lt h, cleanText_no_newline s⟩

theorem activityFold_spec (nodes : List DomNode) : ∀ (n : Nat) (acc : ProfileResult),
    ∃ extra, (nodes.enumFrom n).foldl activityStep acc =
        { acc with RecentActivity := acc.RecentActivity ++ extra } ∧
      extra.length ≤ 5 - n ∧
      ∀ s ∈ extra, s.length ≤ 100 ∧ '\n' ∉ s.data := by
  induction nodes with
  | nil =>
      intro n acc
      exact ⟨[], by simp, by simp, by simp⟩
  | cons x l ih =>
      intro n acc
      rw [List.enumFrom_cons, List.foldl_cons]
      by_cases h5 : n ≥ 5
      · have hstep : activityStep acc (n, x) = acc := by
          unfold activityStep
          rw [if_pos h5]
        rw [hstep]
        obtain ⟨extra, heq, hlen, hP⟩ := ih (n + 1) acc
        exact ⟨extra, heq, by omega, hP⟩
      · by_cases ht : (if (cleanText x.text).length > 100
            then (cleanText x.text).take 97 ++ "..." else cleanText x.text) ≠ ""
        · have hstep : activityStep acc (n, x) =
              { acc with RecentActivity := acc.RecentActivity ++
                [if (cleanText x.text).length > 100
                 then (cleanText x.text).take 97 ++ "..." else cleanText x.text] } := by
            unfold activityStep
            rw [if_neg h5, if_pos ht]
          rw [hstep]
          obtain ⟨extra, heq, hlen, hP⟩ := ih (n + 1)
            { acc with RecentActivity := acc.RecentActivity ++
              [if (cleanText x.text).length > 100
               then (cleanText x.text).take 97 ++ "..." else cleanText x.text] }
          refine ⟨(if (cleanText x.text).length > 100
              then (cleanText x.text).take 97 ++ "..." else cleanText x.text) :: extra, ?_, ?_, ?_⟩
          · rw [heq]
            simp
          · simp only [List.length_cons]
            omega
          · intro s hs
            rcases List.mem_cons.mp hs with hs | hs
            · subst hs
              exact activity_entry_ok x.text
            · exact hP s hs
        · have hstep : activityStep acc (n, x) = acc := by
            unfold activityStep
            rw [if_neg h5, if_neg ht]
          rw [hstep]
          obtain ⟨extra, heq, hlen, hP⟩ := ih (n + 1) acc
          exact ⟨extra, heq, by omega, hP⟩

theorem connectionsFold_spec (nodes : List DomNode) : ∀ (n : Nat) (acc : ProfileResult),
    ∃ extra, (nodes.enumFrom n).foldl connectionsStep acc =
        { acc with Connections := acc.Connections ++ extra } ∧
      extra.length ≤ 5 - n ∧
      ∀ s ∈ extra, s.length ≤ 50 ∧ '\n' ∉ s.data := by
  induction nodes with
  | nil =>
      intro n acc
      exact ⟨[], by simp, by simp, by simp⟩
  | cons x l ih =>
      intro n acc
      rw [List.enumFrom_cons, List.foldl_cons]
      by_cases h5 : n ≥ 5
      · have hstep : connectionsStep acc (n, x) = acc := by
          unfold connectionsStep
          rw [if_pos h5]
        rw [hstep]
        obtain ⟨extra, heq, hlen, hP⟩ := ih (n + 1) acc
        exact ⟨extra, heq, by omega, hP⟩
      · by_cases ht : (if (cleanText x.text).length > 50
            then (cleanText x.text).take 47 ++ "..." else cleanText x.text) ≠ ""
        · have hstep : connectionsStep acc (n, x) =
              { acc with Connections := acc.Connections ++
                [if (cleanText x.text).length > 50
                 then (cleanText x.text).take 47 ++ "..." else cleanText x.text] } := by
            unfold connectionsStep
            rw [if_neg h5, if_pos ht]
          rw [hstep]
          obtain ⟨extra, heq, hlen, hP⟩ := ih (n + 1)
            { acc with Connections := acc.Connections ++
              [if (cleanText x.text).length > 50
               then (cleanText x.text).take 47 ++ "..." else cleanText x.text] }
          refine ⟨(if (cleanText x.text).length > 50
              then (cleanText x.text).take 47 ++ "..." else cleanText x.text) :: extra, ?_, ?_, ?_⟩
          · rw [heq]
            simp
          · simp only [List.length_cons]
            omega
          · intro s hs
            rcases List.mem_cons.mp hs with hs | hs
            · subst hs
              exact connections_entry_ok x.text
            · exact hP s hs
        · have hstep : connectionsStep acc (n, x) = acc := by
            unfold connectionsStep
            rw [if_neg h5, if_neg ht]
          rw [hstep]
          obtain ⟨extra, heq, hlen, hP⟩ := ih (n + 1) acc
          exact ⟨extra, heq, by omega, hP⟩

/-- C9: for every parsed document and platform, extraction adds at most 5
recent-activity entries of at most 100 characters each and at most 5
connection entries of at most 50 characters each (entries are
whitespace-normalized: in particular newline-free), starting from the empty
lists `checkProfile` initialises; a platform whose activity or connections
selector is empty leaves the corresponding field untouched, and extraction
is a total function — no input document raises an error. -/
theorem extraction_capped_bounded_total (doc : Doc) (r : ProfileResult)
    (p : SocialPlatform) (hra : r.RecentActivity = []) (hc : r.Connections = []) :
    ((extractConnections doc (extractRecentActivity doc r p) p).RecentActivity.length ≤ 5) ∧
    (∀ s ∈ (extractConnections doc (extractRecentActivity doc r p) p).RecentActivity,
      s.length ≤ 100 ∧ '\n' ∉ s.data) ∧
    ((extractConnections doc (extractRecentActivity doc r p) p).Connections.length ≤ 5) ∧
    (∀ s ∈ (extractConnections doc (extractRecentActivity doc r p) p).Connections,
      s.length ≤ 50 ∧ '\n' ∉ s.data) ∧
    (p.ActivitySelector = "" → extractRecentActivity doc r p = r) ∧
    (p.ConnectionsSelector = "" → extractConnections doc (extractRecentActivity doc r p) p =
      extractRecentActivity doc r p) := by
  have hact : ∃ extra, extractRecentActivity doc r p =
      { r with RecentActivity := r.RecentActivity ++ extra } ∧ extra.length ≤ 5 ∧
      ∀ s ∈ extra, s.length ≤ 100 ∧ '\n' ∉ s.data := by
    unfold extractRecentActivity
    split_ifs with hsel
    · exact ⟨[], by simp, by norm_num, by simp⟩
    · have h := activityFold_spec (doc p.ActivitySelector) 0 r
      simpa [List.enum] using h
  obtain ⟨extra1, heq1, hlen1, hP1⟩ := hact
  have hconn : ∃ extra, extractConnections doc (extractRecentActivity doc r p) p =
      { extractRecentActivity doc r p with Connections :=
        (extractRecentActivity doc r p).Connections ++ extra } ∧ extra.length ≤ 5 ∧
      ∀ s ∈ extra, s.length ≤ 50 ∧ '\n' ∉ s.data := by
    unfold extractConnections
    split_ifs with hsel
    · exact ⟨[], by simp, by norm_num, by simp⟩
    · have h := connectionsFold_spec (doc p.ConnectionsSelector) 0 (extractRecentActivity doc r p)
      simpa [List.enum] using h
  obtain ⟨extra2, heq2, hlen2, hP2⟩ := hconn
  refine ⟨?_, ?_, ?_, ?_, ?_, ?_⟩
  · rw [heq2, heq1]
    simp [hra]
    omega
  · intro s hs
    rw [heq2, heq1] at hs
    simp [hra] at hs
    exact hP1 s hs
  · rw [heq2, heq1]
    simp [hc]
    omega
  · intro s hs
    rw [heq2, heq1] at hs
    simp [hc] at hs
    exact hP2 s hs
  · intro hsel
    unfold extractRecentActivity
    rw [if_pos hsel]
  · intro hsel
    unfold extractConnections
    rw [if_pos hsel]

theorem extraction_capped_bounded_total_witness :
    ProfileResult.zero.RecentActivity = [] ∧ ProfileResult.zero.Connections = [] ∧
    (((extractConnections sampleDoc (extractRecentActivity sampleDoc ProfileResult.zero
        (platformAt 0)) (platformAt 0)).RecentActivity.length ≤ 5) ∧
     (∀ s ∈ (extractConnections sampleDoc (extractRecentActivity sampleDoc ProfileResult.zero
        (platformAt 0)) (platformAt 0)).RecentActivity, s.length ≤ 100 ∧ '\n' ∉ s.data) ∧
     ((extractConnections sampleDoc (extractRecentActivity sampleDoc ProfileResult.zero
        (platformAt 0)) (platformAt 0)).Connections.length ≤ 5) ∧
     (∀ s ∈ (extractConnections sampleDoc (extractRecentActivity sampleDoc ProfileResult.zero
        (platformAt 0)) (platformAt 0)).Connections, s.length ≤ 50 ∧ '\n' ∉ s.data) ∧
     ((platformAt 0).ActivitySelector = "" →
        extractRecentActivity sampleDoc ProfileResult.zero (platformAt 0) = ProfileResult.zero) ∧
     ((platformAt 0).ConnectionsSelector = "" →
        extractConnections sampleDoc (extractRecentActivity sampleDoc ProfileResult.zero
          (platformAt 0)) (platformAt 0) =
          extractRecentActivity sampleDoc ProfileResult.zero (platformAt 0))) :=
  ⟨rfl, rfl, extraction_capped_bounded_total sampleDoc ProfileResult.zero (platformAt 0) rfl rfl⟩

/-- C2 counterexample: a fetch that received an HTTP 404 response is NOT
terminal — `checkProfile` stores a non-empty `Error` for every non-200
status, and `processSingleProfile`'s loop re-attempts on any non-empty
`Error`, so the 404 attempt is retried (2 attempts are made). -/
theorem retry_404_retried_counterexample :
    (ValidateProfile (platformAt 0) "https://twitter.com/bob" ""
        (.ok 404 "" (.ok "nope"))).StatusCode = 404 ∧
    (attempt404 0).Error = "HTTP Status: 404 - Profile does not exist (404)" ∧
    (runRetries attempt404 0 maxRetries ProfileResult.zero).2 = 2 := by
  refine ⟨rfl, rfl, rfl⟩

/-- C2 amended: a candidate fetch is re-attempted (up to the fixed bound
`maxRetries = 2`, with a 1s × attempt sleep between attempts) exactly when
the attempt produced a result with a non-empty `Error`; `checkProfile`
produces a non-empty `Error` for every validation status other than 200 —
transport errors and HTTP 404, 403 and 429 responses alike are retried
within the item. -/
theorem retry_exactly_on_nonempty_error (step : Nat → ProfileResult) :
    ((step 0).Error = "" → runRetries step 0 maxRetries ProfileResult.zero = (step 0, 1)) ∧
    ((step 0).Error ≠ "" → runRetries step 0 maxRetries ProfileResult.zero = (step 1, 2)) ∧
    (∀ (platform : SocialPlatform) (url username : String) (vfetch : FetchOutcome)
        (efetch : Except String Doc),
      (ValidateProfile platform url "" vfetch).StatusCode ≠ 200 →
      (checkProfile platform url username vfetch efetch).Error ≠ "") := by
  refine ⟨?_, ?_, ?_⟩
  · intro h
    simp [runRetries, maxRetries, h]
  · intro h
    by_cases h2 : (step 1).Error = "" <;> simp [runRetries, maxRetries, h, h2]
  · intro platform url username vfetch efetch hst
    unfold checkProfile
    dsimp only
    rw [if_pos hst]
    intro h
    rw [String.ext_iff] at h
    simp at h

theorem retry_exactly_on_nonempty_error_witness :
    runRetries (fun _ => ProfileResult.zero) 0 maxRetries ProfileResult.zero =
      (ProfileResult.zero, 1) ∧
    (checkProfile (platformAt 0) "https://twitter.com/bob" "bob"
        (.ok 404 "" (.ok "nope")) (.error "unused")).Error ≠ "" :=
  ⟨(retry_exactly_on_nonempty_error (fun _ => ProfileResult.zero)).1 rfl,
   (retry_exactly_on_nonempty_error (fun _ => ProfileResult.zero)).2.2 (platformAt 0)
     "https://twitter.com/bob" "bob" (.ok 404 "" (.ok "nope")) (.error "unused")
     (by decide)⟩

/-! ### The sort only permutes: every mutation is a swap -/

theorem getD_set_perm (d : α) : ∀ (t : List α) (m : Nat) (a : α), m < t.length →
    (t.getD m d :: t.set m a).Perm (a :: t) := by
  intro t
  induction t with
  | nil => intro m a h; simp at h
  | cons b t' ih =>
    intro m a h
    cases m with
    | zero => simpa using List.Perm.swap a b t'
    | succ k =>
      have hk : k < t'.length := by simpa using h
      have step1 : (t'.getD k d :: b :: t'.set k a).Perm (b :: t'.getD k d :: t'.set k a) :=
        List.Perm.swap b (t'.getD k d) _
      have step2 : (b :: t'.getD k d :: t'.set k a).Perm (b :: a :: t') :=
        (ih k a hk).cons b
      have step3 : (b :: a :: t').Perm (a :: b :: t') := List.Perm.swap a b t'
      simpa using (step1.trans step2).trans step3

theorem set_set_swap_perm (d : α) : ∀ (l : List α) (i j : Nat), i < l.length →
    j < l.length → ((l.set i (l.getD j d)).set j (l.getD i d)).Perm l := by
  intro l
  induction l with
  | nil => intro i j hi _; simp at hi
  | cons a t ih =>
    intro i j hi hj
    cases i with
    | zero =>
      cases j with
      | zero => simp
      | succ k =>
        have hk : k < t.length := by simpa using hj
        simpa using getD_set_perm d t k a hk
    | succ m =>
      cases j with
      | zero =>
        have hm : m < t.length := by simpa using hi
        simpa using getD_set_perm d t m a hm
      | succ k =>
        have hm : m < t.length := by simpa using hi
        have hk : k < t.length := by simpa using hj
        simpa using (ih m k hm hk).cons a

theorem swapAt_perm (data : List α) (i j : Nat) (dflt : α) :
    (swapAt data i j dflt).Perm data := by
  unfold swapAt
  split_ifs with h
  · exact set_set_swap_perm dflt data i j h.1 h.2
  · exact List.Perm.refl data

theorem insertionInner_perm (lt : α → α → Bool) (dflt : α) :
    ∀ (fuel : Nat) (data : List α) (j a : Nat),
      (insertionInner lt dflt fuel data j a).Perm data := by
  intro fuel
  induction fuel with
  | zero => intro data j a; exact List.Perm.refl data
  | succ f ih =>
    intro data j a
    rw [insertionInner]
    split_ifs with h
    · exact (ih _ _ _).trans (swapAt_perm data j (j-1) dflt)
    · exact List.Perm.refl data

theorem insertionSortLoop_perm (lt : α → α → Bool) (dflt : α) (a b : Nat) :
    ∀ (fuel : Nat) (data : List α) (i : Nat),
      (insertionSortLoop lt dflt a b fuel data i).Perm data := by
  intro fuel
  induction fuel with
  | zero => intro data i; exact List.Perm.refl data
  | succ f ih =>
    intro data i
    rw [insertionSortLoop]
    split_ifs with h
    · exact (ih _ _).trans (insertionInner_perm lt dflt (i+1) data i a)
    · exact List.Perm.refl data

theorem insertionSortGo_perm (lt : α → α → Bool) (dflt : α) (data : List α) (a b : Nat) :
    (insertionSortGo lt dflt data a b).Perm data :=
  insertionSortLoop_perm lt dflt a b (b+1) data (a+1)

theorem siftDownGo_perm (lt : α → α → Bool) (dflt : α) (first hi : Nat) :
    ∀ (fuel : Nat) (data : List α) (root : Nat),
      (siftDownGo lt dflt first hi fuel data root).Perm data := by
  intro fuel
  induction fuel with
  | zero => intro data root; exact List.Perm.refl data
  | succ f ih =>
    intro data root
    rw [siftDownGo]
    try dsimp only
    split_ifs <;>
      first
        | exact List.Perm.refl data
        | exact (ih _ _).trans (swapAt_perm data _ _ dflt)

theorem heapBuildLoop_perm (lt : α → α → Bool) (dflt : α) (first hi : Nat) :
    ∀ (i : Nat) (data : List α), (heapBuildLoop lt dflt first hi data i).Perm data := by
  intro i
  induction i with
  | zero => intro data; exact siftDownGo_perm lt dflt first hi (hi+1) data 0
  | succ k ih =>
    intro data
    exact (ih _).trans (siftDownGo_perm lt dflt first hi (hi+1) data (k+1))

theorem heapPopLoop_perm (lt : α → α → Bool) (dflt : α) (first : Nat) :
    ∀ (i : Nat) (data : List α), (heapPopLoop lt dflt first data i).Perm data := by
  intro i
  induction i with
  | zero =>
    intro data
    exact (siftDownGo_perm lt dflt first 0 1 _ 0).trans (swapAt_perm data first (first+0) dflt)
  | succ k ih =>
    intro data
    exact ((ih _).trans (siftDownGo_perm lt dflt first (k+1) (k+2) _ 0)).trans
      (swapAt_perm data first (first+(k+1)) dflt)

theorem heapSortGo_perm (lt : α → α → Bool) (dflt : α) (data : List α) (a b : Nat) :
    (heapSortGo lt dflt data a b).Perm data := by
  unfold heapSortGo
  exact (heapPopLoop_perm lt dflt a _ _).trans (heapBuildLoop_perm lt dflt a (b-a) _ data)

theorem reverseRangeGo_perm (dflt : α) : ∀ (fuel : Nat) (data : List α) (i j : Nat),
    (reverseRangeGo dflt fuel data i j).Perm data := by
  intro fuel
  induction fuel with
  | zero => intro data i j; exact List.Perm.refl data
  | succ f ih =>
    intro data i j
    rw [reverseRangeGo]
    split_ifs with h
    · exact (ih _ _ _).trans (swapAt_perm data i j dflt)
    · exact List.Perm.refl data

theorem breakIter_perm (dflt : α) (a length modulus idx : Nat) (st : List α × Nat)
    (i : Nat) : (breakIter dflt a length modulus idx st i).1.Perm st.1 := by
  unfold breakIter
  dsimp only
  exact swapAt_perm st.1 _ _ dflt

theorem breakPatternsGo_perm (dflt : α) (data : List α) (a b : Nat) :
    (breakPatternsGo dflt data a b).Perm data := by
  unfold breakPatternsGo
  dsimp only
  split_ifs with h
  · simp only [List.foldl_cons, List.foldl_nil]
    exact ((breakIter_perm dflt _ _ _ _ _ 2).trans
      ((breakIter_perm dflt _ _ _ _ _ 1).trans (breakIter_perm dflt _ _ _ _ _ 0)))
  · exact List.Perm.refl data

theorem pisShiftLeft_perm (lt : α → α → Bool) (dflt : α) :
    ∀ (j : Nat) (data : List α), (pisShiftLeft lt dflt data j).Perm data := by
  intro j
  induction j with
  | zero => intro data; exact List.Perm.refl data
  | succ k ih =>
    intro data
    rw [pisShiftLeft]
    split_ifs with h <;>
      first
        | exact List.Perm.refl data
        | exact (ih _).trans (swapAt_perm data (k+1) k dflt)

theorem pisShiftRight_perm (lt : α → α → Bool) (dflt : α) (b : Nat) :
    ∀ (fuel : Nat) (data : List α) (j : Nat),
      (pisShiftRight lt dflt b fuel data j).Perm data := by
  intro fuel
  induction fuel with
  | zero => intro data j; exact List.Perm.refl data
  | succ f ih =>
    intro data j
    rw [pisShiftRight]
    split_ifs <;>
      first
        | exact List.Perm.refl data
        | exact (ih _ _).trans (swapAt_perm data j (j-1) dflt)

theorem partialInsertionSortLoop_perm (lt : α → α → Bool) (dflt : α) (a b : Nat) :
    ∀ (steps : Nat) (data : List α) (i : Nat),
      (partialInsertionSortLoop lt dflt a b data i steps).1.Perm data := by
  intro steps
  induction steps with
  | zero => intro data i; exact List.Perm.refl data
  | succ st ih =>
    intro data i
    rw [partialInsertionSortLoop]
    try dsimp only
    split_ifs <;>
      first
        | exact List.Perm.refl data
        | exact (ih _ _).trans (swapAt_perm data _ _ dflt)
        | exact ((ih _ _).trans (pisShiftLeft_perm lt dflt _ _)).trans (swapAt_perm data _ _ dflt)
        | exact ((ih _ _).trans (pisShiftRight_perm lt dflt b (b+1) _ _)).trans
            (swapAt_perm data _ _ dflt)
        | exact (((ih _ _).trans (pisShiftRight_perm lt dflt b (b+1) _ _)).trans
            (pisShiftLeft_perm lt dflt _ _)).trans (swapAt_perm data _ _ dflt)

theorem partialInsertionSortGo_perm (lt : α → α → Bool) (dflt : α) (data : List α)
    (a b : Nat) : (partialInsertionSortGo lt dflt data a b).1.Perm data :=
  partialInsertionSortLoop_perm lt dflt a b 5 data (a+1)

theorem partitionLoop_perm (lt : α → α → Bool) (dflt : α) (a b : Nat) :
    ∀ (fuel : Nat) (data : List α) (i j : Nat),
      (partitionLoop lt dflt a b fuel data i j).1.Perm data := by
  intro fuel
  induction fuel with
  | zero => intro data i j; exact List.Perm.refl data
  | succ f ih =>
    intro data i j
    rw [partitionLoop]
    split_ifs <;>
      first
        | exact List.Perm.refl data
        | exact (ih _ _ _).trans (swapAt_perm data _ _ dflt)

theorem partitionGo_perm (lt : α → α → Bool) (dflt : α) (data : List α)
    (a b pivot : Nat) : (partitionGo lt dflt data a b pivot).1.Perm data := by
  unfold partitionGo
  dsimp only
  split_ifs with h
  · exact (swapAt_perm _ _ _ dflt).trans (swapAt_perm data a pivot dflt)
  · exact (((swapAt_perm _ _ _ dflt).trans (partitionLoop_perm lt dflt a b (b+1) _ _ _)).trans
      (swapAt_perm _ _ _ dflt)).trans (swapAt_perm data a pivot dflt)

theorem partitionEqualLoop_perm (lt : α → α → Bool) (dflt : α) (a b : Nat) :
    ∀ (fuel : Nat) (data : List α) (i j : Nat),
      (partitionEqualLoop lt dflt a b fuel data i j).1.Perm data := by
  intro fuel
  induction fuel with
  | zero => intro data i j; exact List.Perm.refl data
  | succ f ih =>
    intro data i j
    rw [partitionEqualLoop]
    split_ifs <;>
      first
        | exact List.Perm.refl data
        | exact (ih _ _ _).trans (swapAt_perm data _ _ dflt)

theorem partitionEqualGo_perm (lt : α → α → Bool) (dflt : α) (data : List α)
    (a b pivot : Nat) : (partitionEqualGo lt dflt data a b pivot).1.Perm data := by
  unfold partitionEqualGo
  exact (partitionEqualLoop_perm lt dflt a b (b+1) _ _ _).trans
    (swapAt_perm data a pivot dflt)

theorem pdqPartitionPhase_perm (lt : α → α → Bool) (dflt : α)
    (rec : List α → Nat → Nat → Nat → Bool → Bool → List α)
    (hrec : ∀ (d : List α) (a b l : Nat) (x y : Bool), (rec d a b l x y).Perm d)
    (data3 : List α) (a b limit1 pivot2 length : Nat) (wb wp : Bool) :
    (pdqPartitionPhase lt dflt rec data3 a b limit1 pivot2 length wb wp).Perm data3 := by
  unfold pdqPartitionPhase
  dsimp only
  split_ifs <;>
    first
      | exact (hrec _ _ _ _ _ _).trans (partitionEqualGo_perm lt dflt _ _ _ _)
      | exact ((hrec _ _ _ _ _ _).trans (hrec _ _ _ _ _ _)).trans
          (partitionGo_perm lt dflt _ _ _ _)

theorem pdqPisPhase_perm (lt : α → α → Bool) (dflt : α) (data2 : List α) (a b : Nat)
    (hint2 : SortedHint) (wb wp : Bool) :
    (pdqPisPhase lt dflt data2 a b hint2 wb wp).1.Perm data2 := by
  unfold pdqPisPhase
  split_ifs
  · exact partialInsertionSortGo_perm lt dflt _ _ _
  · exact List.Perm.refl _

theorem pdqsortStep_perm (lt : α → α → Bool) (dflt : α)
    (rec : List α → Nat → Nat → Nat → Bool → Bool → List α)
    (hrec : ∀ (d : List α) (a b l : Nat) (x y : Bool), (rec d a b l x y).Perm d)
    (data : List α) (a b limit : Nat) (wb wp : Bool) :
    (pdqsortStep lt dflt rec data a b limit wb wp).Perm data := by
  unfold pdqsortStep
  dsimp only
  have h1 : (if ¬ wb = true then breakPatternsGo dflt data a b else data).Perm data := by
    split_ifs <;>
      first
        | exact breakPatternsGo_perm dflt data a b
        | exact List.Perm.refl data
  generalize hD1 : (if ¬ wb = true then breakPatternsGo dflt data a b else data) = D1 at h1 ⊢
  have h2 : (if (choosePivotGo lt dflt D1 a b).2 = SortedHint.decreasing then
      reverseRangeGo dflt (b+1) D1 a (b-1) else D1).Perm D1 := by
    split_ifs <;>
      first
        | exact reverseRangeGo_perm dflt (b+1) D1 a (b-1)
        | exact List.Perm.refl D1
  generalize hD2 : (if (choosePivotGo lt dflt D1 a b).2 = SortedHint.decreasing then
      reverseRangeGo dflt (b+1) D1 a (b-1) else D1) = D2 at h2 ⊢
  have h3 : ∀ hnt : SortedHint, (pdqPisPhase lt dflt D2 a b hnt wb wp).1.Perm D2 :=
    fun hnt => pdqPisPhase_perm lt dflt D2 a b hnt wb wp
  split_ifs <;>
    first
      | exact ((h3 _).trans h2).trans h1
      | exact (((pdqPartitionPhase_perm lt dflt rec hrec _ _ _ _ _ _ _ _).trans
          (h3 _)).trans h2).trans h1

theorem pdqsortGo_perm (lt : α → α → Bool) (dflt : α) :
    ∀ (fuel : Nat) (data : List α) (a b limit : Nat) (wb wp : Bool),
      (pdqsortGo lt dflt fuel data a b limit wb wp).Perm data := by
  intro fuel
  induction fuel with
  | zero => intro data a b limit wb wp; exact List.Perm.refl data
  | succ f ih =>
    intro data a b limit wb wp
    rw [pdqsortGo]
    split_ifs <;>
      first
        | exact insertionSortGo_perm lt dflt data a b
        | exact heapSortGo_perm lt dflt data a b
        | exact pdqsortStep_perm lt dflt (pdqsortGo lt dflt f)
            (fun d a2 b2 l2 x y => ih d a2 b2 l2 x y) data a b limit wb wp

theorem sortSliceGo_perm (lt : α → α → Bool) (dflt : α) (data : List α) :
    (sortSliceGo lt dflt data).Perm data :=
  pdqsortGo_perm lt dflt (data.length + 1) data 0 data.length (bitsLen data.length) true true

/-- C6 counterexample: `sort.Slice` (Go 1.23 pdqsort) is not stable.  On
thirteen aggregated profiles whose platform-"A" members arrive in insertion
order u1..u12, the sorted list places u6 before u1..u5, so insertion order
among profiles with equal platform name is not preserved. -/
theorem sort_not_stable_counterexample :
    ((c6Received.filter (fun r => r.Platform == "A")).map ProfileResult.URL =
      ["u1", "u2", "u3", "u4", "u5", "u6", "u7", "u8", "u9", "u10", "u11", "u12"]) ∧
    ((sortProfiles c6Received).map ProfileResult.URL =
      ["u6", "u1", "u2", "u3", "u4", "u5", "u7", "u8", "u9", "u10", "u11", "u12", "u0"]) ∧
    (((sortProfiles c6Received).filter (fun r => r.Platform == "A")).map ProfileResult.URL ≠
      ["u1", "u2", "u3", "u4", "u5", "u6", "u7", "u8", "u9", "u10", "u11", "u12"]) := by
  refine ⟨by decide, by decide, by decide⟩

/-- C6 amended: the final profile list returned by a run is the aggregated
list reordered by Go's `sort.Slice` under the platform-name comparator; it
is always a permutation of the aggregate, but the sort is unstable, so
insertion order among equal platform names is not preserved in general. -/
theorem sort_only_permutes (profiles : List ProfileResult) :
    (sortProfiles profiles).Perm profiles :=
  sortSliceGo_perm profileLess ProfileResult.zero profiles

/-! ### C1 / C10: the returned error -/

/-- C1 counterexample: when `g.Wait()` reports a worker-level error, the
function returns `nil` results and the fatal "worker error" — the
aggregated partial results are dropped, not returned with a summary. -/
theorem worker_error_returns_nil_counterexample :
    SearchProfilesSequentially "john smith" "t0"
      (fun _ _ => (FetchOutcome.reqError "x", Except.error "x")) []
      (some "context canceled") "" none =
      RunOutcome.workerFatal "worker error: context canceled" := rfl

/-- C1 amended: a `g.Wait()` error makes `SearchProfilesSequentially`
return `nil, fmt.Errorf("worker error: %v", err)`, dropping all collected
profiles; only when no worker-level error occurred and the errors channel
is non-empty does it return the aggregated results with the non-fatal
summary error. -/
theorem worker_error_drops_results (query timestamp err : String)
    (received : List ProfileResult) (errorsChanLen : Nat) (outputPath : String)
    (saveErr : Option String) :
    (searchFinish query timestamp (some err) received errorsChanLen outputPath saveErr =
      RunOutcome.workerFatal ("worker error: " ++ err)) ∧
    (0 < errorsChanLen →
      searchFinish query timestamp none received errorsChanLen outputPath saveErr =
        RunOutcome.partialWithSummary (collectResults query timestamp received)
          (s!"encountered {errorsChanLen} errors during scanning")) := by
  constructor
  · rfl
  · intro h
    unfold searchFinish
    dsimp only
    rw [if_pos h]

/-- C10: no statement of the worker bodies sends on `errorsChan`, so the
run's error channel is empty in every execution and the summary-error
return (`encountered N errors during scanning`) is unreachable. -/
theorem errors_channel_never_written (query timestamp : String)
    (net : workItem → Nat → FetchOutcome × Except String Doc) (items : List workItem)
    (gWaitErr : Option String) (outputPath : String) (saveErr : Option String) :
    (runTraffic net items).sentErrors = [] ∧
    ∀ (res : SocialMediaResults) (e : String),
      SearchProfilesSequentially query timestamp net items gWaitErr outputPath saveErr ≠
        RunOutcome.partialWithSummary res e := by
  have herr : ∀ (its : List workItem) (acc : ChannelTraffic),
      (its.foldl (trafficStep net) acc).sentErrors = acc.sentErrors := by
    intro its
    induction its with
    | nil => intro acc; rfl
    | cons w rest ih =>
      intro acc
      rw [List.foldl_cons, ih]
      simp [trafficStep, workItemTraffic]
  have h0 : (runTraffic net items).sentErrors = [] := herr items _
  refine ⟨h0, ?_⟩
  intro res e
  unfold SearchProfilesSequentially
  dsimp only
  rw [h0]
  cases gWaitErr with
  | some err => simp [searchFinish]
  | none =>
    unfold searchFinish
    dsimp only
    rw [if_neg (by simp)]
    split_ifs <;> cases saveErr <;> simp

theorem collectStep_inv (st : AggState) (r : ProfileResult) (h : AggInv st) :
    AggInv (collectStep st r) := by
  obtain ⟨h1, h2, h3⟩ := h
  unfold collectStep
  split_ifs with hmem hex
  · exact ⟨h1, h2, h3⟩
  · refine ⟨by simp [h1], ?_, ?_⟩
    · rw [List.map_append, List.nodup_append]
      refine ⟨h2, by simp, ?_⟩
      intro u hu
      simp only [List.map_cons, List.map_nil, List.mem_singleton]
      intro hc
      rcases List.mem_map.1 hu with ⟨p, hp, hpu⟩
      exact hmem (hc ▸ hpu ▸ (h3 p hp).2)
    · intro p hp
      rcases List.mem_append.1 hp with hp | hp
      · exact ⟨(h3 p hp).1, List.mem_append.2 (Or.inl (h3 p hp).2)⟩
      · rw [List.mem_singleton] at hp
        subst hp
        exact ⟨hex, by simp⟩
  · refine ⟨h1, h2, ?_⟩
    intro p hp
    exact ⟨(h3 p hp).1, by simp [(h3 p hp).2]⟩

theorem collectFold_inv : ∀ (rs : List ProfileResult) (st : AggState), AggInv st →
    AggInv (rs.foldl collectStep st) := by
  intro rs
  induction rs with
  | nil => intro st h; exact h
  | cons r rest ih => intro st h; exact ih _ (collectStep_inv st r h)

theorem collectStep_processed (st : AggState) (r : ProfileResult) :
    r.URL ∈ (collectStep st r).processedProfiles ∧
    ∀ u ∈ st.processedProfiles, u ∈ (collectStep st r).processedProfiles := by
  unfold collectStep
  split_ifs with hmem hex
  · exact ⟨hmem, fun u hu => hu⟩
  · exact ⟨by simp, fun u hu => by simp [hu]⟩
  · exact ⟨by simp, fun u hu => by simp [hu]⟩

theorem collectFold_firstWins : ∀ (rs : List ProfileResult) (st : AggState),
    ∀ p ∈ (rs.foldl collectStep st).results.Profiles,
      p ∈ st.results.Profiles ∨
      (p.URL ∉ st.processedProfiles ∧ rs.find? (fun r => r.URL == p.URL) = some p) := by
  intro rs
  induction rs with
  | nil => intro st p hp; exact Or.inl hp
  | cons r rest ih =>
    intro st p hp
    rw [List.foldl_cons] at hp
    rcases ih (collectStep st r) p hp with hmem | ⟨hnot, hfind⟩
    · unfold collectStep at hmem
      by_cases hm : r.URL ∈ st.processedProfiles
      · rw [if_pos hm] at hmem
        exact Or.inl hmem
      · rw [if_neg hm] at hmem
        dsimp only at hmem
        by_cases hex : r.Exists
        · rw [if_pos hex] at hmem
          dsimp only at hmem
          rcases List.mem_append.1 hmem with hmem | hmem
          · exact Or.inl hmem
          · rw [List.mem_singleton] at hmem
            subst hmem
            refine Or.inr ⟨hm, ?_⟩
            simp [List.find?]
        · rw [if_neg hex] at hmem
          exact Or.inl hmem
    · have hproc := collectStep_processed st r
      have hne : p.URL ≠ r.URL := by
        intro hc
        exact hnot (hc ▸ hproc.1)
      have hnot0 : p.URL ∉ st.processedProfiles := fun hc => hnot (hproc.2 _ hc)
      refine Or.inr ⟨hnot0, ?_⟩
      rw [List.find?_cons]
      have hbeq : (r.URL == p.URL) = false := by
        rw [beq_eq_false_iff_ne]
        exact fun hc => hne hc.symm
      rw [hbeq]
      exact hfind

/-- C3: after aggregation the result set holds at most one profile per URL
(the first received wins, whatever the arrival order), every aggregated
profile has `Exists = true`, and `ProfilesFound` equals the number of
aggregated profiles. -/
theorem aggregation_invariants (query timestamp : String)
    (received : List ProfileResult) :
    ((collectResults query timestamp received).ProfilesFound =
      (collectResults query timestamp received).Profiles.length) ∧
    ((collectResults query timestamp received).Profiles.map ProfileResult.URL).Nodup ∧
    (∀ p ∈ (collectResults query timestamp received).Profiles,
      p.Exists = true ∧ received.find? (fun r => r.URL == p.URL) = some p) := by
  have hinv : AggInv (received.foldl collectStep
      { processedProfiles := []
        results := { Query := query, Timestamp := timestamp, ProfilesFound := 0,
                     Profiles := [] } }) :=
    collectFold_inv received _ ⟨rfl, List.nodup_nil, by intro p hp; simp at hp⟩
  have hfw := collectFold_firstWins received
      { processedProfiles := []
        results := { Query := query, Timestamp := timestamp, ProfilesFound := 0,
                     Profiles := [] } }
  unfold collectResults
  refine ⟨hinv.1, hinv.2.1, ?_⟩
  intro p hp
  rcases hfw p hp with h | ⟨_, hfind⟩
  · simp at h
  · exact ⟨(hinv.2.2 p hp).1, hfind⟩

/-! ### C7 / C8: name variations -/

theorem mem_insertVar (l : List String) (t s : String) (h : s ∈ l) : s ∈ insertVar l t := by
  unfold insertVar
  split_ifs <;> simp [h]

theorem self_mem_insertVar (l : List String) (t : String) : t ∈ insertVar l t := by
  unfold insertVar
  split_ifs with h
  · exact h
  · simp

theorem mem_foldl_insert {β : Type} (f : List String → β → List String)
    (hf : ∀ (l : List String) (x : β) (s : String), s ∈ l → s ∈ f l x) :
    ∀ (xs : List β) (l : List String) (s : String), s ∈ l → s ∈ xs.foldl f l := by
  intro xs
  induction xs with
  | nil => intro l s h; exact h
  | cons x xs ih => intro l s h; exact ih _ _ (hf _ _ _ h)

theorem mem_insertVars (l : List String) (ss : List String) (s : String) (h : s ∈ l) :
    s ∈ insertVars l ss :=
  mem_foldl_insert insertVar (fun l t s h => mem_insertVar l t s h) ss l s h

theorem mem_numberFold (years pats : List String) (l : List String) (s : String)
    (h : s ∈ l) : s ∈ numberFold years pats l := by
  unfold numberFold
  refine mem_foldl_insert _ ?_ _ _ _ h
  intro l2 pat s2 h2
  refine mem_foldl_insert _ ?_ _ _ _ h2
  intro l3 num s3 h3
  split_ifs
  · exact mem_insertVar _ _ _ h3
  · exact h3

theorem mem_l33tFold (base : String) (l : List String) (s : String) (h : s ∈ l) :
    s ∈ l33tFold base l := by
  unfold l33tFold
  refine mem_foldl_insert _ ?_ _ _ _ h
  intro l2 pr s2 h2
  split_ifs
  · exact mem_insertVar _ _ _ h2
  · exact h2

theorem mem_variationsWithLast (currentYear : Nat) (lowerFirst lowerLast : String)
    (l : List String) (s : String) (h : s ∈ l) :
    s ∈ variationsWithLast currentYear lowerFirst lowerLast l := by
  unfold variationsWithLast
  dsimp only
  split_ifs
  · exact mem_l33tFold _ _ _
      (mem_numberFold _ _ _ _ (mem_insertVars _ _ _ (mem_insertVar _ _ _ h)))
  · exact mem_numberFold _ _ _ _ (mem_insertVars _ _ _ (mem_insertVar _ _ _ h))

theorem mem_variationsSingle (currentYear : Nat) (lowerFirst : String)
    (l : List String) (s : String) (h : s ∈ l) :
    s ∈ variationsSingle currentYear lowerFirst l := by
  unfold variationsSingle
  dsimp only
  refine mem_foldl_insert _ ?_ _ _ _ h
  intro l2 x s2 h2
  exact mem_insertVar _ _ _ h2

theorem mem_truncStep (c : Prop) [Decidable c] (v ts : List String) (s : String)
    (h : s ∈ v) : s ∈ (if c then insertVars v ts else v) := by
  split_ifs
  · exact mem_insertVars _ _ _ h
  · exact h

theorem mem_branchStep (c : Prop) [Decidable c] (Y : Nat) (lf ll : String)
    (v : List String) (s : String) (h : s ∈ v) :
    s ∈ (if c then variationsWithLast Y lf ll v else variationsSingle Y lf v) := by
  split_ifs
  · exact mem_variationsWithLast _ _ _ _ _ h
  · exact mem_variationsSingle _ _ _ _ h

theorem variations_membership (currentYear : Nat) (fullName : String) :
    (fieldsGo (trimSpaceGo fullName) = [] →
      getNameVariationsList currentYear fullName = []) ∧
    (fieldsGo (trimSpaceGo fullName) ≠ [] →
      getNameVariationsList currentYear fullName ≠ [] ∧
      trimSpaceGo fullName ∈ getNameVariationsList currentYear fullName ∧
      toLowerGo ((fieldsGo (trimSpaceGo fullName)).headD "") ∈
        getNameVariationsList currentYear fullName) := by
  constructor
  · intro h
    unfold getNameVariationsList
    dsimp only
    rw [h]
    rfl
  · intro h
    obtain ⟨a, parts2, hE⟩ : ∃ a parts2, fieldsGo (trimSpaceGo fullName) = a :: parts2 := by
      cases hE : fieldsGo (trimSpaceGo fullName) with
      | nil => exact absurd hE h
      | cons a l => exact ⟨a, l, rfl⟩
    have hfull : trimSpaceGo fullName ∈ getNameVariationsList currentYear fullName := by
      unfold getNameVariationsList
      dsimp only
      rw [hE]
      rw [if_neg (by simp)]
      exact mem_branchStep _ _ _ _ _ _
        (mem_truncStep _ _ _ _ (mem_insertVar _ _ _ (self_mem_insertVar _ _)))
    have hlow : toLowerGo ((fieldsGo (trimSpaceGo fullName)).headD "") ∈
        getNameVariationsList currentYear fullName := by
      unfold getNameVariationsList
      dsimp only
      rw [hE]
      rw [if_neg (by simp)]
      exact mem_branchStep _ _ _ _ _ _
        (mem_truncStep _ _ _ _ (self_mem_insertVar _ _))
    exact ⟨fun hc => by rw [hc] at hfull; exact absurd hfull (List.not_mem_nil _),
      hfull, hlow⟩

set_option maxRecDepth 100000 in
set_option maxHeartbeats 4000000 in
/-- C7 counterexample: `GetNameVariations("John Smith")` contains the
original string and the lowercase first token, but not the lowercase form
"john smith" of the full name — tokens and concatenations are lowercased,
the spaced full string is not. -/
theorem variations_lowercase_full_missing_counterexample :
    ("John Smith" ∈ getNameVariationsList 2026 "John Smith") ∧
    ("john" ∈ getNameVariationsList 2026 "John Smith") ∧
    ("john smith" ∉ getNameVariationsList 2026 "John Smith") := by
  refine ⟨by decide, by decide, by decide⟩

set_option maxRecDepth 100000 in
set_option maxHeartbeats 4000000 in
/-- C8 counterexample: Go's `for v := range variations` order is
unspecified.  The identity enumeration and the reversal are both admissible
(each emits a permutation of the key set), yet two runs on "Jo Li" hand the
orchestrator the variations in different orders. -/
theorem variations_order_nondeterministic_counterexample :
    (∀ l : List String, (List.reverse l).Perm l) ∧
    getNameVariationsRun id 2026 "Jo Li" ≠
      getNameVariationsRun List.reverse 2026 "Jo Li" := by
  constructor
  · intro l
    exact List.reverse_perm l
  · decide

/-- C8 amended: the key SET of `GetNameVariations` is deterministic — two
runs under any admissible enumerations of the map yield permutations of
each other, of equal length — but the emission order is not. -/
theorem variations_set_deterministic (f g : List String → List String)
    (hf : ∀ l, (f l).Perm l) (hg : ∀ l, (g l).Perm l)
    (currentYear : Nat) (fullName : String) :
    (getNameVariationsRun f currentYear fullName).Perm
      (getNameVariationsRun g currentYear fullName) ∧
    (getNameVariationsRun f currentYear fullName).length =
      (getNameVariationsRun g currentYear fullName).length := by
  have hp : (getNameVariationsRun f currentYear fullName).Perm
      (getNameVariationsRun g currentYear fullName) :=
    (hf (getNameVariationsList currentYear fullName)).trans
      (hg (getNameVariationsList currentYear fullName)).symm
  exact ⟨hp, hp.length_eq⟩

/-- Instantiation of `variations_set_deterministic` at the identity and
reversal enumerations on a concrete input. -/
theorem variations_set_deterministic_witness :
    (getNameVariationsRun id 2026 "Bob").Perm
      (getNameVariationsRun List.reverse 2026 "Bob") ∧
    (getNameVariationsRun id 2026 "Bob").length =
      (getNameVariationsRun List.reverse 2026 "Bob").length :=
  variations_set_deterministic id List.reverse (fun l => List.Perm.refl l)
    (fun l => List.reverse_perm l) 2026 "Bob"

end Mercuries
